import Mathlib

/-!
Verification development for the Facebook warmup bot backend (`app.py`).

The shallow embedding models:
- the profile store operations `add_profile`, `delete_profile`, `update_profile`;
- the loop-count validation in the `/api/run` route (`validate_loops`);
- the queue built by `run_bot_sequential` (`buildQueue`);
- the per-entry pipeline `run_bot_on_profile` as an instrumented pure
  function producing the sequence of shared-state mutations it performs,
  with the cooperative stop flag read from an external Boolean schedule
  `stopF : Nat → Bool` indexed by a logical clock (one tick per observable
  action: shared-state mutation, flag read, or driver call);
- the queue runner `run_bot_sequential` as a recursion over the queue,
  producing the full trace of shared states.

Driver outcomes (setup, navigate, login, and the soft steps) are inputs
(`StepResults`), since the automation driver is an external collaborator.
Telemetry fields of the status store (current_profile, current_task,
current_round, logs) are not modelled; the modelled state carries the
fields the verified properties are about: `running`, `queue`, `completed`,
`failed`, `task_results`.
-/

set_option maxHeartbeats 1000000

namespace FbWarmup

/-- Status of a queue entry, as in the status-store comment in `app.py`. -/
inductive Status where
  | pending
  | running
  | completed
  | failed
  | skipped
deriving DecidableEq, Repr

/-- One queue entry: `{"profile": name, "round": num, "status": ...}`. -/
structure QueueEntry where
  profile : String
  round : Nat
  status : Status
deriving DecidableEq, Repr

/-- A stored profile: `{id, name, path, created}` (`created` is the
iso-format timestamp string). -/
structure Profile where
  id : Int
  name : String
  path : String
  created : String
deriving DecidableEq, Repr

/-- The id generation of `add_profile`: `max([p['id'] for p in profiles], default=0)`. -/
def maxId (profiles : List Profile) : Int :=
  profiles.foldl (fun m p => max m p.id) 0

/-- `add_profile` (`app.py` L364-388): reject a duplicate `path`, otherwise
append a profile with id `maxId + 1`. Returns the new store and the new
profile, or `none` for the 400 error. -/
def add_profile (profiles : List Profile) (nm pth now : String) :
    Option (List Profile × Profile) :=
  if profiles.any (fun p => p.path == pth) then none
  else
    let np : Profile := { id := maxId profiles + 1, name := nm, path := pth, created := now }
    some (profiles ++ [np], np)

/-- `delete_profile` (`app.py` L390-396): keep the profiles whose id differs. -/
def delete_profile (profiles : List Profile) (pid : Int) : List Profile :=
  profiles.filter (fun p => p.id != pid)

/-- `update_profile` (`app.py` L398-411): update name/path of the first
profile with the given id (the loop breaks after the first match); fields
absent from the request keep their value. No duplicate-path check. -/
def update_profile (profiles : List Profile) (pid : Int)
    (nm pth : Option String) : List Profile :=
  match profiles with
  | [] => []
  | p :: rest =>
    if p.id = pid then
      { p with name := nm.getD p.name, path := pth.getD p.path } :: rest
    else
      p :: update_profile rest pid nm pth

/-- Loop-count validation in the `/api/run` route (`app.py` L423-429):
a non-integer payload (`none`) or an integer below 1 coerces to 1, then
values above 100 clamp to 100. -/
def validate_loops (loops : Option Int) : Int :=
  match loops with
  | none => 1
  | some l =>
    let l1 := if l < 1 then 1 else l
    if l1 > 100 then 100 else l1

/-- The queue built at run start (`app.py` L272-282): for each round
`1..loops`, one pending entry per selected profile, in order. -/
def buildQueue (selected : List String) (loops : Nat) : List QueueEntry :=
  (List.range loops).flatMap fun r =>
    selected.map fun nm => { profile := nm, round := r + 1, status := Status.pending }

/-- The modelled part of the shared status store `bot_status`: the run flag,
the queue, the `completed` and `failed` key lists, and `task_results`
(an ordered association list mirroring the Python dict). -/
structure BotState where
  running : Bool
  queue : List QueueEntry
  completed : List String
  failed : List String
  taskResults : List (String × List (String × Bool))
deriving DecidableEq, Repr

/-- One observable point of a run: the logical clock at which it was
emitted, whether the shared state is at a statement boundary outside the
two-statement status-set/key-append windows (`stable`), and the shared
state itself. Points are emitted one per observable action: shared-state
mutation, stop-flag read, or driver call. -/
structure TracePoint where
  clock : Nat
  stable : Bool
  st : BotState
deriving DecidableEq, Repr

/-- `bot_status["queue"][i]["status"] = s`. -/
def setStatus : List QueueEntry → Nat → Status → List QueueEntry
  | [], _, _ => []
  | e :: rest, 0, s => { e with status := s } :: rest
  | e :: rest, i + 1, s => e :: setStatus rest i s

/-- Status of the entry at index `i`. -/
def entryStatus (s : BotState) (i : Nat) : Option Status :=
  s.queue[i]?.map (fun e => e.status)

/-- Dict assignment `m[k] = v` on an ordered association list: overwrite
the first binding of `k` in place, else append at the end. -/
def setTR (k : String) (v : List (String × Bool))
    : List (String × List (String × Bool)) → List (String × List (String × Bool))
  | [] => [(k, v)]
  | (k', v') :: rest => if k' = k then (k, v) :: rest else (k', v') :: setTR k v rest

/-- Outcome of `setup_browser` (`facebook_bot.py` L227-294): `ok` means a
driver was created and `True` returned; `failNoDriver` means `False` with
`self.driver` still `None` (driver binary missing, or the constructor
raised); `failDriver` means the constructor succeeded but a later call in
the method raised, so `False` is returned with a live driver. -/
inductive SetupOutcome where
  | ok
  | failNoDriver
  | failDriver
deriving DecidableEq, Repr

/-- Black-box outcomes of the driver calls made by one pipeline run; the
automation driver is an external collaborator. -/
structure StepResults where
  setup : SetupOutcome
  navigate : Bool
  login : Bool
  feedAccess : Bool
  visitProfile : Bool
  returnHome : Bool
  story : Bool
  likePost : Bool
  comment : Bool
  imagePost : Bool
deriving DecidableEq, Repr

/-- Result of one pipeline run (`run_bot_on_profile`): the emitted trace
points, the final shared state and clock, the final entry status, the
number of sessions opened (successful `webdriver.Edge` constructions) and
the number of `driver.quit()` calls (a `close_browser` call quits whenever
`self.driver` is not `None`, and never resets it to `None`), the number of
`close_browser` calls, the local `results["tasks"]` mapping, the recorded
error message, and the list of pipeline step numbers before which the stop
flag was consulted. -/
structure PipeOut where
  pts : List TracePoint
  st : BotState
  clock : Nat
  status : Status
  opens : Nat
  closes : Nat
  closeCalls : Nat
  localTasks : List (String × Bool)
  error : Option String
  checkpoints : List Nat
deriving Repr

/-- Prepend already-emitted points to a pipeline result. -/
def addPts (ps : List TracePoint) (o : PipeOut) : PipeOut :=
  { o with pts := ps ++ o.pts }

/-- Shared state after the `running` transition (`app.py` L68). -/
def pipeS1 (s0 : BotState) (idx : Nat) : BotState :=
  { s0 with queue := setStatus s0.queue idx Status.running }

/-- Shared state after `task_results[key] = {}` (`app.py` L69). -/
def pipeS2 (s0 : BotState) (key : String) (idx : Nat) : BotState :=
  { pipeS1 s0 idx with taskResults := setTR key [] (pipeS1 s0 idx).taskResults }

/-- The two entry mutations of the pipeline, as trace points. -/
def pipeHead (s0 : BotState) (key : String) (idx t0 : Nat) : List TracePoint :=
  [⟨t0, true, pipeS1 s0 idx⟩, ⟨t0 + 1, true, pipeS2 s0 key idx⟩]

/-- `m` consecutive ticks (flag reads and driver calls) that leave the
shared state `s` unchanged, starting at clock `t`. -/
def s2Ticks (s : BotState) (t m : Nat) : List TracePoint :=
  (List.range m).map fun k => ⟨t + k, true, s⟩

/-- Exit taken when a checkpoint past browser setup observes the stop flag
(`app.py` L101-106, L135-140, L173-178, L207-212): the flag read, the
explicit `close_browser` (first quit), the `skipped` transition, and the
scoped `finally` close (second quit, since `close_browser` leaves
`self.driver` set). -/
def cancelExit (s : BotState) (idx t : Nat) (lt : List (String × Bool))
    (cps : List Nat) : PipeOut :=
  let s' := { s with queue := setStatus s.queue idx Status.skipped }
  { pts := [⟨t, true, s⟩, ⟨t + 1, true, s⟩, ⟨t + 2, true, s'⟩, ⟨t + 3, true, s'⟩],
    st := s', clock := t + 4, status := Status.skipped,
    opens := 1, closes := 2, closeCalls := 2,
    localTasks := lt, error := none, checkpoints := cps }

/-- Exit taken when a hard-fail step raises (`app.py` L241-254): the
`failed` transition (mid-window, hence unstable), the append to the
`failed` list, and the `finally` close. `task_results[key]` keeps the
empty dict written at entry. -/
def failExit (s : BotState) (key : String) (idx t opens quits : Nat)
    (lt : List (String × Bool)) (cps : List Nat) (msg : String) : PipeOut :=
  let s1 := { s with queue := setStatus s.queue idx Status.failed }
  let s2 := { s1 with failed := s1.failed ++ [key] }
  { pts := [⟨t, false, s1⟩, ⟨t + 1, true, s2⟩, ⟨t + 2, true, s2⟩],
    st := s2, clock := t + 3, status := Status.failed,
    opens := opens, closes := quits, closeCalls := 1,
    localTasks := lt, error := some msg, checkpoints := cps }

/-- Exit taken when all tasks complete (`app.py` L235-254): the `completed`
transition (mid-window, hence unstable), the append to the `completed`
list, publishing the local task results, and the `finally` close. -/
def doneExit (s : BotState) (key : String) (idx t : Nat)
    (lt : List (String × Bool)) (cps : List Nat) : PipeOut :=
  let s1 := { s with queue := setStatus s.queue idx Status.completed }
  let s2 := { s1 with completed := s1.completed ++ [key] }
  let s3 := { s2 with taskResults := setTR key lt s2.taskResults }
  { pts := [⟨t, false, s1⟩, ⟨t + 1, true, s2⟩, ⟨t + 2, true, s3⟩, ⟨t + 3, true, s3⟩],
    st := s3, clock := t + 4, status := Status.completed,
    opens := 1, closes := 1, closeCalls := 1,
    localTasks := lt, error := none, checkpoints := cps }

/-- The per-entry pipeline `run_bot_on_profile` (`app.py` L58-256),
instrumented. The stop flag is read from `stopF` at the current clock;
each read, shared-state mutation, and driver call advances the clock by
one and emits a trace point. Soft steps only extend the local
`results["tasks"]` list; the shared state is unchanged between the
task-results reset at entry and the exit transition. -/
def run_bot_on_profile (res : StepResults) (stopF : Nat → Bool) (key : String)
    (idx : Nat) (s0 : BotState) (t0 : Nat) : PipeOut :=
  let s2 := pipeS2 s0 key idx
  -- checkpoint before task 1 (L86-90); on stop: skipped, then only the scoped close
  if stopF (t0 + 2) then
    let s3 := { s2 with queue := setStatus s2.queue idx Status.skipped }
    { pts := pipeHead s0 key idx t0
        ++ [⟨t0 + 2, true, s2⟩, ⟨t0 + 3, true, s3⟩, ⟨t0 + 4, true, s3⟩],
      st := s3, clock := t0 + 5, status := Status.skipped,
      opens := 0, closes := 0, closeCalls := 1,
      localTasks := [], error := none, checkpoints := [1] }
  else
    -- task 1: setup_browser (L92-99); mid ticks: the checkpoint read and the call
    match res.setup with
    | SetupOutcome.failNoDriver =>
      addPts (pipeHead s0 key idx t0 ++ s2Ticks s2 (t0 + 2) 2)
        (failExit s2 key idx (t0 + 4) 0 0 [] [1] "Failed to setup browser")
    | SetupOutcome.failDriver =>
      addPts (pipeHead s0 key idx t0 ++ s2Ticks s2 (t0 + 2) 2)
        (failExit s2 key idx (t0 + 4) 1 1 [] [1] "Failed to setup browser")
    | SetupOutcome.ok =>
      let lt1 := [("browser_setup", true)]
      -- checkpoint before task 2 (L101-106)
      if stopF (t0 + 4) then
        addPts (pipeHead s0 key idx t0 ++ s2Ticks s2 (t0 + 2) 2)
          (cancelExit s2 idx (t0 + 4) lt1 [1, 2])
      else
        -- task 2: navigate_to_facebook (L108-115)
        if res.navigate = false then
          addPts (pipeHead s0 key idx t0 ++ s2Ticks s2 (t0 + 2) 4)
            (failExit s2 key idx (t0 + 6) 1 1 lt1 [1, 2] "Failed to navigate to Facebook")
        else
          let lt2 := lt1 ++ [("navigation", true)]
          -- task 3: check_login_status (L117-123)
          if res.login = false then
            addPts (pipeHead s0 key idx t0 ++ s2Ticks s2 (t0 + 2) 5)
              (failExit s2 key idx (t0 + 7) 1 1 lt2 [1, 2]
                "Not logged in - please login to this profile first")
          else
            let lt3 := lt2 ++ [("login_check", true)]
            -- task 4: verify_feed_access (L125-133), soft
            let lt4 := lt3 ++ [("feed_access", res.feedAccess)]
            -- checkpoint before task 5 (L135-140)
            if stopF (t0 + 8) then
              addPts (pipeHead s0 key idx t0 ++ s2Ticks s2 (t0 + 2) 6)
                (cancelExit s2 idx (t0 + 8) lt4 [1, 2, 5])
            else
              -- task 5: browse feed (L142-149), always recorded true
              let lt5 := lt4 ++ [("browse_feed", true)]
              -- task 6: visit_first_post_profile (L151-160), soft
              let lt6 := lt5 ++ [("visit_profile", res.visitProfile)]
              -- task 7: go_back_to_home (L162-171), soft
              let lt7 := lt6 ++ [("return_home", res.returnHome)]
              -- checkpoint before task 8 (L173-178)
              if stopF (t0 + 12) then
                addPts (pipeHead s0 key idx t0 ++ s2Ticks s2 (t0 + 2) 10)
                  (cancelExit s2 idx (t0 + 12) lt7 [1, 2, 5, 8])
              else
                -- task 8: watch_and_like_first_story (L180-189), soft
                let lt8 := lt7 ++ [("story", res.story)]
                -- task 9: like_first_post (L191-205), soft
                let lt9 := lt8 ++ [("like_post", res.likePost)]
                -- checkpoint before task 10 (L207-212)
                if stopF (t0 + 15) then
                  addPts (pipeHead s0 key idx t0 ++ s2Ticks s2 (t0 + 2) 13)
                    (cancelExit s2 idx (t0 + 15) lt9 [1, 2, 5, 8, 10])
                else
                  -- task 10: comment_on_first_post (L214-223), soft
                  let lt10 := lt9 ++ [("comment", res.comment)]
                  -- task 11: create_image_post (L225-233), soft
                  let lt11 := lt10 ++ [("image_post", res.imagePost)]
                  addPts (pipeHead s0 key idx t0 ++ s2Ticks s2 (t0 + 2) 16)
                    (doneExit s2 key idx (t0 + 18) lt11 [1, 2, 5, 8, 10])

/-- The `"name_Rround"` key (`app.py` L62). -/
def stdKey (nm : String) (r : Nat) : String := nm ++ "_R" ++ toString r

/-- The name lookup `profiles_dict = {p['name']: p for p in profiles}`
(`app.py` L285); a later profile with the same name shadows an earlier
one, as in the dict comprehension. -/
def profilesDict (db : List Profile) (nm : String) : Option Profile :=
  db.reverse.find? (fun p => p.name == nm)

/-- The stop-triggered sweep (`app.py` L305-308): walk the remaining
indices, turning each still-pending entry into `skipped`; one trace point
per index. -/
def markLoop : List (String × Nat) → Nat → BotState → Nat → List TracePoint × BotState
  | [], _, s, _ => ([], s)
  | _ :: rest, idx, s, t =>
    let s' := if entryStatus s idx = some Status.pending
              then { s with queue := setStatus s.queue idx Status.skipped } else s
    let o := markLoop rest (idx + 1) s' (t + 1)
    (⟨t, true, s'⟩ :: o.1, o.2)

/-- Result of the queue loop: emitted trace points, final shared state and
clock, and the indices for which the pipeline was invoked. -/
structure LoopOut where
  pts : List TracePoint
  st : BotState
  clock : Nat
  invoked : List Nat
deriving Repr

/-- The queue iteration of `run_bot_sequential` (`app.py` L303-331):
before each entry, read the stop flag (one tick); if set, run the skip
sweep and stop. Otherwise resolve the profile name: an unresolvable name
marks the entry skipped without invoking the pipeline; a resolved one runs
the pipeline on the entry. -/
def runLoop (db : List Profile) (resFor : Nat → StepResults) (stopF : Nat → Bool) :
    List (String × Nat) → Nat → BotState → Nat → LoopOut
  | [], _, s, t => ⟨[], s, t, []⟩
  | (nm, r) :: rest, idx, s, t =>
    if stopF t then
      let mk := markLoop ((nm, r) :: rest) idx s (t + 1)
      ⟨⟨t, true, s⟩ :: mk.1, mk.2, t + 1 + ((nm, r) :: rest).length, []⟩
    else
      match profilesDict db nm with
      | none =>
        let s' := { s with queue := setStatus s.queue idx Status.skipped }
        let o := runLoop db resFor stopF rest (idx + 1) s' (t + 2)
        ⟨⟨t, true, s⟩ :: ⟨t + 1, true, s'⟩ :: o.pts, o.st, o.clock, o.invoked⟩
      | some _ =>
        let out := run_bot_on_profile (resFor idx) stopF (stdKey nm r) idx s (t + 1)
        let o := runLoop db resFor stopF rest (idx + 1) out.st out.clock
        ⟨⟨t, true, s⟩ :: (out.pts ++ o.pts), o.st, o.clock, idx :: o.invoked⟩

/-- Result of a full run: the trace, the final state, and the invoked
entry indices. -/
structure RunOut where
  trace : List TracePoint
  final : BotState
  invoked : List Nat
deriving Repr

/-- `run_bot_sequential` (`app.py` L258-349): reset the run state, build
the queue, iterate it, then clear the `running` flag. The initial state is
emitted at clock 0 and the loop starts at clock 1. -/
def run_bot_sequential (db : List Profile) (selected : List String) (loops : Nat)
    (resFor : Nat → StepResults) (stopF : Nat → Bool) : RunOut :=
  let queue := buildQueue selected loops
  let s0 : BotState := ⟨true, queue, [], [], []⟩
  let items := queue.map (fun e => (e.profile, e.round))
  let o := runLoop db resFor stopF items 0 s0 1
  let s2 := { o.st with running := false }
  ⟨⟨0, true, s0⟩ :: (o.pts ++ [⟨o.clock, true, s2⟩]), s2, o.invoked⟩

/-- Count of queue entries whose status satisfies `p`. -/
def countD (q : List QueueEntry) (p : Status → Bool) : Nat :=
  (q.filter (fun e => p e.status)).length

/-- Predicates for the status-poll invariant. -/
def isCompleted (s : Status) : Bool := s == Status.completed

def isFailed (s : Status) : Bool := s == Status.failed

def isSkipped (s : Status) : Bool := s == Status.skipped

def isPendRun (s : Status) : Bool := s == Status.pending || s == Status.running

/-- The status-poll invariant from the spec:
`completed.size + failed.size + count(skipped) + count(pending or running)`
equals the queue length. -/
def statusInv (s : BotState) : Prop :=
  s.completed.length + s.failed.length + countD s.queue isSkipped
    + countD s.queue isPendRun = s.queue.length

/-- The strengthened bookkeeping invariant: the `completed` and `failed`
key lists are in sync with the entry statuses. -/
def sync (s : BotState) : Prop :=
  countD s.queue isCompleted = s.completed.length
    ∧ countD s.queue isFailed = s.failed.length

/-- The five checkpoint positions of the pipeline, by step number. -/
def checkpointSteps : List Nat := [1, 2, 5, 8, 10]

/-- The bundle of facts established about one pipeline invocation
`o = run_bot_on_profile res stopF key idx s0 t0`, shared by the claim
proofs: clock bounds, frame conditions on the other entries and the run
flag, terminal entry status, preservation of the bookkeeping invariant at
stable points, session-resource accounting, hard-failure bookkeeping, and
the checkpoint discipline. -/
structure PipeSpec (res : StepResults) (stopF : Nat → Bool) (key : String)
    (idx : Nat) (s0 : BotState) (t0 : Nat) (o : PipeOut) : Prop where
  clock_lt : t0 < o.clock
  pts_clock : ∀ pt ∈ o.pts, t0 ≤ pt.clock ∧ pt.clock < o.clock
  st_running : o.st.running = s0.running
  st_len : o.st.queue.length = s0.queue.length
  st_frame : ∀ j, j ≠ idx → o.st.queue[j]? = s0.queue[j]?
  pts_running : ∀ pt ∈ o.pts, pt.st.running = s0.running
  pts_len : ∀ pt ∈ o.pts, pt.st.queue.length = s0.queue.length
  pts_frame : ∀ pt ∈ o.pts, ∀ j, j ≠ idx → pt.st.queue[j]? = s0.queue[j]?
  pts_idx : ∀ pt ∈ o.pts, entryStatus pt.st idx ≠ some Status.pending
  status_terminal : o.status = Status.skipped ∨ o.status = Status.completed
    ∨ o.status = Status.failed
  st_idx : entryStatus s0 idx = some Status.pending →
    entryStatus o.st idx = some o.status
  sync_out : entryStatus s0 idx = some Status.pending → sync s0 → sync o.st
  sync_pts : entryStatus s0 idx = some Status.pending → sync s0 →
    ∀ pt ∈ o.pts, pt.stable = true → sync pt.st
  opens_le_closes : o.opens ≤ o.closes
  closes_le : o.closes ≤ 2 * o.opens
  opens_le_one : o.opens ≤ 1
  fail_tr : o.status = Status.failed →
    o.error.isSome = true ∧ List.lookup key o.st.taskResults = some []
  cps_take : ∃ k, o.checkpoints = checkpointSteps.take k
  skip_err : o.status = Status.skipped → o.error = none
  cps_full : res.setup = SetupOutcome.ok → res.navigate = true →
    res.login = true → (∀ n, stopF n = false) → o.checkpoints = checkpointSteps
  abort1 : stopF (t0 + 2) = true → o.status = Status.skipped

/-- The bundle of facts established about one stop-triggered skip sweep
`(pts, s') = markLoop items idx s t`: only still-pending entries from
index `idx` on are turned into skipped, nothing else changes, the
bookkeeping invariant is preserved at every emitted point, and all points
are stable. -/
structure MarkSpec (items : List (String × Nat)) (idx : Nat) (s : BotState)
    (t : Nat) (pts : List TracePoint) (s' : BotState) : Prop where
  running_eq : s'.running = s.running
  completed_eq : s'.completed = s.completed
  failed_eq : s'.failed = s.failed
  tr_eq : s'.taskResults = s.taskResults
  len_eq : s'.queue.length = s.queue.length
  frame_lt : ∀ j, j < idx → s'.queue[j]? = s.queue[j]?
  frame : ∀ j, s'.queue[j]? = s.queue[j]?
    ∨ (entryStatus s j = some Status.pending
        ∧ entryStatus s' j = some Status.skipped)
  marks : s.queue.length ≤ idx + items.length →
    ∀ j, idx ≤ j → entryStatus s j = some Status.pending →
      entryStatus s' j = some Status.skipped
  pts_stable : ∀ pt ∈ pts, pt.stable = true
  pts_clock : ∀ pt ∈ pts, t ≤ pt.clock ∧ pt.clock < t + items.length
  pts_running : ∀ pt ∈ pts, pt.st.running = s.running
  pts_len : ∀ pt ∈ pts, pt.st.queue.length = s.queue.length
  pts_frame_lt : ∀ pt ∈ pts, ∀ j, j < idx → pt.st.queue[j]? = s.queue[j]?
  pts_frame : ∀ pt ∈ pts, ∀ j, pt.st.queue[j]? = s.queue[j]?
    ∨ (entryStatus s j = some Status.pending
        ∧ entryStatus pt.st j = some Status.skipped)
  sync_out : sync s → sync s'
  pts_sync : sync s → ∀ pt ∈ pts, sync pt.st

/-- The bundle of facts established about the queue iteration
`o = runLoop db resFor stopF items idx s t`, given that the entries from
`idx` on are exactly the pending remainder of the queue: clock bounds,
frame conditions on already-processed entries, preservation of the
bookkeeping invariant at stable points, the skip sweep on a stop request,
the cancellation guarantee for still-pending entries, and the treatment of
unresolvable profile names. -/
structure LoopSpec (db : List Profile) (resFor : Nat → StepResults)
    (stopF : Nat → Bool) (items : List (String × Nat)) (idx : Nat)
    (s : BotState) (t : Nat) (o : LoopOut) : Prop where
  clock_ge : t ≤ o.clock
  pts_clock : ∀ pt ∈ o.pts, t ≤ pt.clock ∧ pt.clock < o.clock
  running_eq : o.st.running = s.running
  len_eq : o.st.queue.length = s.queue.length
  frame_lt : ∀ j, j < idx → o.st.queue[j]? = s.queue[j]?
  pts_frame_lt : ∀ pt ∈ o.pts, ∀ j, j < idx → pt.st.queue[j]? = s.queue[j]?
  sync_out : sync o.st
  pts_sync : ∀ pt ∈ o.pts, pt.stable = true → sync pt.st
  entry_stop : stopF t = true → ∀ i, idx ≤ i →
    entryStatus s i = some Status.pending →
    entryStatus o.st i = some Status.skipped
  c1 : (∀ a b, a ≤ b → stopF a = true → stopF b = true) →
    ∀ pt ∈ o.pts, ∀ i, idx ≤ i → stopF pt.clock = true →
      entryStatus pt.st i = some Status.pending →
      entryStatus o.st i = some Status.skipped
  c8 : ∀ k nm r, items[k]? = some (nm, r) → profilesDict db nm = none →
    entryStatus o.st (idx + k) = some Status.skipped
    ∧ (idx + k) ∉ o.invoked
    ∧ ∀ pt ∈ o.pts, entryStatus pt.st (idx + k) ≠ some Status.running
  invoked_ge : ∀ i ∈ o.invoked, idx ≤ i
  final_done : ∀ j, idx ≤ j → j < s.queue.length →
    entryStatus o.st j = some Status.skipped
    ∨ entryStatus o.st j = some Status.completed
    ∨ entryStatus o.st j = some Status.failed

/-- Driver outcomes with every step succeeding. -/
def allOk : StepResults :=
  ⟨SetupOutcome.ok, true, true, true, true, true, true, true, true, true⟩

/-- Driver outcomes where navigation fails (hard-fail at step 2). -/
def navFail : StepResults := { allOk with navigate := false }

/-- A one-profile store used for concrete runs. -/
def dbA : List Profile := [⟨1, "a", "p1", ""⟩]

/-- A one-entry shared state used for concrete pipeline runs. -/
def stA : BotState := ⟨true, [⟨"a", 1, Status.pending⟩], [], [], []⟩

/-- A stop schedule that is never set. -/
def noStop : Nat → Bool := fun _ => false

/-- A stop schedule set from clock `k` on (monotone by construction). -/
def stopFrom (k : Nat) : Nat → Bool := fun n => decide (k ≤ n)

theorem length_setStatus (q : List QueueEntry) (i : Nat) (s : Status) :
    (setStatus q i s).length = q.length := by
  induction q generalizing i with
  | nil => simp [setStatus]
  | cons e rest ih => cases i <;> simp [setStatus, ih]

theorem get?_setStatus_self (q : List QueueEntry) (i : Nat) (s : Status) :
    (setStatus q i s)[i]? = q[i]?.map (fun e => { e with status := s }) := by
  induction q generalizing i with
  | nil => simp [setStatus]
  | cons e rest ih => cases i <;> simp [setStatus, ih]

theorem get?_setStatus_ne (q : List QueueEntry) (i j : Nat) (s : Status)
    (h : j ≠ i) : (setStatus q i s)[j]? = q[j]? := by
  induction q generalizing i j with
  | nil => simp [setStatus]
  | cons e rest ih =>
    cases i with
    | zero => cases j with
      | zero => exact absurd rfl h
      | succ j => simp [setStatus]
    | succ i => cases j with
      | zero => simp [setStatus]
      | succ j => simpa [setStatus] using ih i j (by omega)

theorem setStatus_oob (q : List QueueEntry) (i : Nat) (s : Status)
    (h : q[i]? = none) : setStatus q i s = q := by
  induction q generalizing i with
  | nil => simp [setStatus]
  | cons e rest ih =>
    cases i with
    | zero => simp at h
    | succ i => simp_all [setStatus]

theorem countD_nil (p : Status → Bool) : countD [] p = 0 := rfl

theorem countD_cons (e : QueueEntry) (q : List QueueEntry) (p : Status → Bool) :
    countD (e :: q) p = (if p e.status then 1 else 0) + countD q p := by
  simp [countD, List.filter_cons]
  split <;> simp [Nat.add_comm]

theorem countD_setStatus (q : List QueueEntry) (i : Nat) (s : Status)
    (p : Status → Bool) (e : QueueEntry) (h : q[i]? = some e) :
    countD (setStatus q i s) p + (if p e.status then 1 else 0)
      = countD q p + (if p s then 1 else 0) := by
  induction q generalizing i with
  | nil => simp at h
  | cons a rest ih =>
    cases i with
    | zero =>
      simp at h
      subst h
      simp [setStatus, countD_cons]
      omega
    | succ i =>
      simp at h
      have := ih i h
      simp [setStatus, countD_cons]
      omega

theorem countD_partition (q : List QueueEntry) :
    countD q isSkipped + countD q isPendRun + countD q isCompleted
      + countD q isFailed = q.length := by
  induction q with
  | nil => rfl
  | cons e rest ih =>
    simp only [countD_cons, List.length_cons]
    cases e.status <;>
      simp [isSkipped, isPendRun, isCompleted, isFailed] <;> omega

theorem sync_statusInv (s : BotState) (h : sync s) : statusInv s := by
  obtain ⟨h1, h2⟩ := h
  have hp := countD_partition s.queue
  unfold statusInv
  omega

theorem lookup_setTR (k : String) (v : List (String × Bool))
    (m : List (String × List (String × Bool))) :
    List.lookup k (setTR k v m) = some v := by
  induction m with
  | nil => simp [setTR, List.lookup]
  | cons kv rest ih =>
    obtain ⟨k', v'⟩ := kv
    by_cases h : k' = k
    · simp [setTR, h, List.lookup]
    · have hb : (k == k') = false := by simp [Ne.symm h]
      simp [setTR, h, List.lookup, hb]
      exact ih

theorem statusAt_set_self (q : List QueueEntry) (i : Nat) (X : Status) :
    (setStatus q i X)[i]?.map QueueEntry.status = q[i]?.map (fun _ => X) := by
  rw [get?_setStatus_self]
  cases q[i]? <;> rfl

theorem entry_pending_elim (s : BotState) (idx : Nat)
    (hp : entryStatus s idx = some Status.pending) :
    ∃ e, s.queue[idx]? = some e ∧ e.status = Status.pending := by
  unfold entryStatus at hp
  cases h : s.queue[idx]? with
  | none => rw [h] at hp; simp at hp
  | some e =>
    rw [h] at hp
    simp at hp
    exact ⟨e, rfl, hp⟩

theorem countD_set_pending_nonCF (q : List QueueEntry) (idx : Nat)
    (e : QueueEntry) (hp : q[idx]? = some e) (hpend : e.status = Status.pending)
    (X : Status) (p : Status → Bool) (hpe : p Status.pending = p X) :
    countD (setStatus q idx X) p = countD q p := by
  have h := countD_setStatus q idx X p e hp
  rw [hpend, hpe] at h
  omega

theorem countD_double_set (q : List QueueEntry) (idx : Nat) (e : QueueEntry)
    (hp : q[idx]? = some e) (X : Status) (p : Status → Bool) :
    countD (setStatus (setStatus q idx Status.running) idx X) p
      + (if p e.status then 1 else 0) = countD q p + (if p X then 1 else 0) := by
  have h1 := countD_setStatus q idx Status.running p e hp
  have hp1 : (setStatus q idx Status.running)[idx]?
      = some { e with status := Status.running } := by
    rw [get?_setStatus_self, hp]
    rfl
  have h2 := countD_setStatus (setStatus q idx Status.running) idx X p _ hp1
  simp only [] at h2
  omega

theorem forall_mem_s2Ticks {P : TracePoint → Prop} (s : BotState) (t m : Nat)
    (h : ∀ k, k < m → P ⟨t + k, true, s⟩) : ∀ pt ∈ s2Ticks s t m, P pt := by
  intro pt hpt
  simp only [s2Ticks, List.mem_map, List.mem_range] at hpt
  obtain ⟨k, hk, rfl⟩ := hpt
  exact h k hk

theorem entry_set_ne_pending (q : List QueueEntry) (idx : Nat) (X : Status)
    (hX : X ≠ Status.pending) :
    ¬ ((setStatus q idx X)[idx]?.map QueueEntry.status = some Status.pending) := by
  rw [statusAt_set_self]
  cases q[idx]? with
  | none => simp
  | some e =>
    simp
    exact hX

theorem forall_mem_head_ticks_tail {P : TracePoint → Prop}
    (s0 : BotState) (key : String) (idx t0 m : Nat) (s : BotState)
    (tail : List TracePoint)
    (hh1 : P ⟨t0, true, pipeS1 s0 idx⟩)
    (hh2 : P ⟨t0 + 1, true, pipeS2 s0 key idx⟩)
    (hticks : ∀ k, k < m → P ⟨t0 + 2 + k, true, s⟩)
    (htail : ∀ pt ∈ tail, P pt) :
    ∀ pt ∈ (pipeHead s0 key idx t0 ++ s2Ticks s (t0 + 2) m) ++ tail, P pt := by
  intro pt hpt
  rcases List.mem_append.mp hpt with h | h
  · rcases List.mem_append.mp h with h | h
    · simp only [pipeHead, List.mem_cons, List.not_mem_nil, or_false] at h
      rcases h with rfl | rfl
      · exact hh1
      · exact hh2
    · exact forall_mem_s2Ticks s (t0 + 2) m hticks pt h
  · exact htail pt h

theorem sync_pipeS1 (s0 : BotState) (idx : Nat)
    (hp : entryStatus s0 idx = some Status.pending) (hs : sync s0) :
    sync (pipeS1 s0 idx) := by
  obtain ⟨e, he, hpend⟩ := entry_pending_elim s0 idx hp
  unfold sync pipeS1
  simp only []
  rw [countD_set_pending_nonCF s0.queue idx e he hpend Status.running isCompleted rfl,
    countD_set_pending_nonCF s0.queue idx e he hpend Status.running isFailed rfl]
  exact hs

theorem sync_pipeS2 (s0 : BotState) (key : String) (idx : Nat)
    (hp : entryStatus s0 idx = some Status.pending) (hs : sync s0) :
    sync (pipeS2 s0 key idx) := by
  have := sync_pipeS1 s0 idx hp hs
  unfold sync pipeS2 at *
  simpa using this

theorem sync_cancel_state (s0 : BotState) (key : String) (idx : Nat)
    (hp : entryStatus s0 idx = some Status.pending) (hs : sync s0) :
    sync { pipeS2 s0 key idx with
      queue := setStatus (pipeS2 s0 key idx).queue idx Status.skipped } := by
  obtain ⟨e, he, hpend⟩ := entry_pending_elim s0 idx hp
  have h1 := countD_double_set s0.queue idx e he Status.skipped isCompleted
  have h2 := countD_double_set s0.queue idx e he Status.skipped isFailed
  rw [hpend] at h1 h2
  simp [isCompleted, isFailed] at h1 h2
  unfold sync pipeS2 pipeS1
  simp only [] at *
  obtain ⟨hc, hf⟩ := hs
  constructor <;> omega

theorem cancel_shape_spec (res : StepResults) (stopF : Nat → Bool) (key : String)
    (idx : Nat) (s0 : BotState) (t0 m tC k : Nat) (lt : List (String × Bool))
    (cps : List Nat) (ht : tC = t0 + 2 + m) (hcps : cps = checkpointSteps.take k)
    (hstop : stopF tC = true) :
    PipeSpec res stopF key idx s0 t0
      (addPts (pipeHead s0 key idx t0 ++ s2Ticks (pipeS2 s0 key idx) (t0 + 2) m)
        (cancelExit (pipeS2 s0 key idx) idx tC lt cps)) := by
  subst ht
  subst hcps
  refine PipeSpec.mk ?_ ?_ ?_ ?_ ?_ ?_ ?_ ?_ ?_ ?_ ?_ ?_ ?_ ?_ ?_ ?_ ?_ ?_ ?_ ?_ ?_
  · simp only [addPts, cancelExit]
    omega
  · simp only [addPts, cancelExit]
    refine forall_mem_head_ticks_tail s0 key idx t0 m _ _ ?_ ?_ ?_ ?_
    · dsimp only
      omega
    · dsimp only
      omega
    · intro k' hk'
      dsimp
      omega
    · intro pt hpt
      simp only [List.mem_cons, List.not_mem_nil, or_false] at hpt
      rcases hpt with rfl | rfl | rfl | rfl <;> dsimp <;> omega
  · simp [addPts, cancelExit, pipeS2, pipeS1]
  · simp [addPts, cancelExit, pipeS2, pipeS1, length_setStatus]
  · intro j hj
    simp only [addPts, cancelExit, pipeS2, pipeS1]
    rw [get?_setStatus_ne _ _ _ _ hj, get?_setStatus_ne _ _ _ _ hj]
  · simp only [addPts, cancelExit]
    refine forall_mem_head_ticks_tail s0 key idx t0 m _ _ ?_ ?_ ?_ ?_
    · simp [pipeS1]
    · simp [pipeS2, pipeS1]
    · intro k' hk'
      simp [pipeS2, pipeS1]
    · intro pt hpt
      simp only [List.mem_cons, List.not_mem_nil, or_false] at hpt
      rcases hpt with rfl | rfl | rfl | rfl <;> simp [pipeS2, pipeS1]
  · simp only [addPts, cancelExit]
    refine forall_mem_head_ticks_tail s0 key idx t0 m _ _ ?_ ?_ ?_ ?_
    · simp [pipeS1, length_setStatus]
    · simp [pipeS2, pipeS1, length_setStatus]
    · intro k' hk'
      simp [pipeS2, pipeS1, length_setStatus]
    · intro pt hpt
      simp only [List.mem_cons, List.not_mem_nil, or_false] at hpt
      rcases hpt with rfl | rfl | rfl | rfl <;> simp [pipeS2, pipeS1, length_setStatus]
  · simp only [addPts, cancelExit]
    refine forall_mem_head_ticks_tail s0 key idx t0 m _ _ ?_ ?_ ?_ ?_
    · intro j hj
      simp only [pipeS1]
      rw [get?_setStatus_ne _ _ _ _ hj]
    · intro j hj
      simp only [pipeS2, pipeS1]
      rw [get?_setStatus_ne _ _ _ _ hj]
    · intro k' hk' j hj
      simp only [pipeS2, pipeS1]
      rw [get?_setStatus_ne _ _ _ _ hj]
    · intro pt hpt
      simp only [List.mem_cons, List.not_mem_nil, or_false] at hpt
      rcases hpt with rfl | rfl | rfl | rfl <;>
        (intro j hj
         simp only [pipeS2, pipeS1]
         rw [get?_setStatus_ne _ _ _ _ hj]) <;>
        rw [get?_setStatus_ne _ _ _ _ hj]
  · simp only [addPts, cancelExit]
    refine forall_mem_head_ticks_tail s0 key idx t0 m _ _ ?_ ?_ ?_ ?_
    · simp only [entryStatus, pipeS1]
      exact entry_set_ne_pending _ _ _ (by decide)
    · simp only [entryStatus, pipeS2, pipeS1]
      exact entry_set_ne_pending _ _ _ (by decide)
    · intro k' hk'
      simp only [entryStatus, pipeS2, pipeS1]
      exact entry_set_ne_pending _ _ _ (by decide)
    · intro pt hpt
      simp only [List.mem_cons, List.not_mem_nil, or_false] at hpt
      rcases hpt with rfl | rfl | rfl | rfl <;>
        (simp only [entryStatus, pipeS2, pipeS1]
         exact entry_set_ne_pending _ _ _ (by decide))
  · simp [addPts, cancelExit]
  · intro hp
    obtain ⟨e, he, _⟩ := entry_pending_elim s0 idx hp
    simp only [addPts, cancelExit, entryStatus, pipeS2, pipeS1]
    rw [statusAt_set_self, get?_setStatus_self, he]
    rfl
  · intro hp hs
    simp only [addPts, cancelExit]
    exact sync_cancel_state s0 key idx hp hs
  · intro hp hs
    simp only [addPts, cancelExit]
    refine forall_mem_head_ticks_tail s0 key idx t0 m _ _ ?_ ?_ ?_ ?_
    · intro _
      exact sync_pipeS1 s0 idx hp hs
    · intro _
      exact sync_pipeS2 s0 key idx hp hs
    · intro k' hk' _
      exact sync_pipeS2 s0 key idx hp hs
    · intro pt hpt
      simp only [List.mem_cons, List.not_mem_nil, or_false] at hpt
      rcases hpt with rfl | rfl | rfl | rfl <;> intro _ <;>
        first
          | exact sync_pipeS2 s0 key idx hp hs
          | exact sync_cancel_state s0 key idx hp hs
  · simp only [addPts, cancelExit]
    omega
  · simp only [addPts, cancelExit]
    omega
  · simp only [addPts, cancelExit]
    omega
  · intro h
    simp only [addPts, cancelExit] at h
    simp at h
  · exact ⟨k, by simp [addPts, cancelExit]⟩
  · intro _
    simp [addPts, cancelExit]
  · intro _ _ _ hstopAll
    rw [hstopAll] at hstop
    exact Bool.noConfusion hstop
  · intro _
    simp [addPts, cancelExit]

theorem fail_shape_spec (res : StepResults) (stopF : Nat → Bool) (key : String)
    (idx : Nat) (s0 : BotState) (t0 m tE opens quits k : Nat)
    (lt : List (String × Bool)) (cps : List Nat) (msg : String)
    (ht : tE = t0 + 2 + m) (hr1 : opens ≤ quits) (hr2 : quits ≤ 2 * opens)
    (hr3 : opens ≤ 1) (hcps : cps = checkpointSteps.take k)
    (h1 : stopF (t0 + 2) = false)
    (hno : res.setup ≠ SetupOutcome.ok ∨ res.navigate = false ∨ res.login = false) :
    PipeSpec res stopF key idx s0 t0
      (addPts (pipeHead s0 key idx t0 ++ s2Ticks (pipeS2 s0 key idx) (t0 + 2) m)
        (failExit (pipeS2 s0 key idx) key idx tE opens quits lt cps msg)) := by
  subst ht
  subst hcps
  refine PipeSpec.mk ?_ ?_ ?_ ?_ ?_ ?_ ?_ ?_ ?_ ?_ ?_ ?_ ?_ ?_ ?_ ?_ ?_ ?_ ?_ ?_ ?_
  · simp only [addPts, failExit]
    omega
  · simp only [addPts, failExit]
    refine forall_mem_head_ticks_tail s0 key idx t0 m _ _ ?_ ?_ ?_ ?_
    · dsimp only
      omega
    · dsimp only
      omega
    · intro k' hk'
      dsimp
      omega
    · intro pt hpt
      simp only [List.mem_cons, List.not_mem_nil, or_false] at hpt
      rcases hpt with rfl | rfl | rfl <;> dsimp <;> omega
  · simp [addPts, failExit, pipeS2, pipeS1]
  · simp [addPts, failExit, pipeS2, pipeS1, length_setStatus]
  · intro j hj
    simp only [addPts, failExit, pipeS2, pipeS1]
    rw [get?_setStatus_ne _ _ _ _ hj, get?_setStatus_ne _ _ _ _ hj]
  · simp only [addPts, failExit]
    refine forall_mem_head_ticks_tail s0 key idx t0 m _ _ ?_ ?_ ?_ ?_
    · simp [pipeS1]
    · simp [pipeS2, pipeS1]
    · intro k' hk'
      simp [pipeS2, pipeS1]
    · intro pt hpt
      simp only [List.mem_cons, List.not_mem_nil, or_false] at hpt
      rcases hpt with rfl | rfl | rfl <;> simp [pipeS2, pipeS1]
  · simp only [addPts, failExit]
    refine forall_mem_head_ticks_tail s0 key idx t0 m _ _ ?_ ?_ ?_ ?_
    · simp [pipeS1, length_setStatus]
    · simp [pipeS2, pipeS1, length_setStatus]
    · intro k' hk'
      simp [pipeS2, pipeS1, length_setStatus]
    · intro pt hpt
      simp only [List.mem_cons, List.not_mem_nil, or_false] at hpt
      rcases hpt with rfl | rfl | rfl <;> simp [pipeS2, pipeS1, length_setStatus]
  · simp only [addPts, failExit]
    refine forall_mem_head_ticks_tail s0 key idx t0 m _ _ ?_ ?_ ?_ ?_
    · intro j hj
      simp only [pipeS1]
      rw [get?_setStatus_ne _ _ _ _ hj]
    · intro j hj
      simp only [pipeS2, pipeS1]
      rw [get?_setStatus_ne _ _ _ _ hj]
    · intro k' hk' j hj
      simp only [pipeS2, pipeS1]
      rw [get?_setStatus_ne _ _ _ _ hj]
    · intro pt hpt
      simp only [List.mem_cons, List.not_mem_nil, or_false] at hpt
      rcases hpt with rfl | rfl | rfl <;>
        (intro j hj
         simp only [pipeS2, pipeS1]
         rw [get?_setStatus_ne _ _ _ _ hj]) <;>
        rw [get?_setStatus_ne _ _ _ _ hj]
  · simp only [addPts, failExit]
    refine forall_mem_head_ticks_tail s0 key idx t0 m _ _ ?_ ?_ ?_ ?_
    · simp only [entryStatus, pipeS1]
      exact entry_set_ne_pending _ _ _ (by decide)
    · simp only [entryStatus, pipeS2, pipeS1]
      exact entry_set_ne_pending _ _ _ (by decide)
    · intro k' hk'
      simp only [entryStatus, pipeS2, pipeS1]
      exact entry_set_ne_pending _ _ _ (by decide)
    · intro pt hpt
      simp only [List.mem_cons, List.not_mem_nil, or_false] at hpt
      rcases hpt with rfl | rfl | rfl <;>
        (simp only [entryStatus, pipeS2, pipeS1]
         exact entry_set_ne_pending _ _ _ (by decide))
  · simp [addPts, failExit]
  · intro hp
    obtain ⟨e, he, _⟩ := entry_pending_elim s0 idx hp
    simp only [addPts, failExit, entryStatus, pipeS2, pipeS1]
    rw [statusAt_set_self, get?_setStatus_self, he]
    rfl
  · intro hp hs
    obtain ⟨e, he, hpend⟩ := entry_pending_elim s0 idx hp
    have h1c := countD_double_set s0.queue idx e he Status.failed isCompleted
    have h2c := countD_double_set s0.queue idx e he Status.failed isFailed
    rw [hpend] at h1c h2c
    simp [isCompleted, isFailed] at h1c h2c
    obtain ⟨hc, hf⟩ := hs
    simp [addPts, failExit, sync, pipeS2, pipeS1]
    constructor <;> omega
  · intro hp hs
    obtain ⟨e, he, hpend⟩ := entry_pending_elim s0 idx hp
    have h1c := countD_double_set s0.queue idx e he Status.failed isCompleted
    have h2c := countD_double_set s0.queue idx e he Status.failed isFailed
    rw [hpend] at h1c h2c
    simp [isCompleted, isFailed] at h1c h2c
    obtain ⟨hc, hf⟩ := hs
    simp only [addPts, failExit]
    refine forall_mem_head_ticks_tail s0 key idx t0 m _ _ ?_ ?_ ?_ ?_
    · intro _
      exact sync_pipeS1 s0 idx hp ⟨hc, hf⟩
    · intro _
      exact sync_pipeS2 s0 key idx hp ⟨hc, hf⟩
    · intro k' hk' _
      exact sync_pipeS2 s0 key idx hp ⟨hc, hf⟩
    · intro pt hpt
      simp only [List.mem_cons, List.not_mem_nil, or_false] at hpt
      rcases hpt with rfl | rfl | rfl
      · intro hfalse
        simp at hfalse
      · intro _
        simp [sync, pipeS2, pipeS1]
        constructor <;> omega
      · intro _
        simp [sync, pipeS2, pipeS1]
        constructor <;> omega
  · simpa [addPts, failExit] using hr1
  · simpa [addPts, failExit] using hr2
  · simpa [addPts, failExit] using hr3
  · intro _
    constructor
    · simp [addPts, failExit]
    · simp only [addPts, failExit, pipeS2, pipeS1]
      exact lookup_setTR key [] s0.taskResults
  · exact ⟨k, by simp [addPts, failExit]⟩
  · intro h
    simp [addPts, failExit] at h
  · intro hok hnav hlog _
    rcases hno with h | h | h
    · exact absurd hok h
    · rw [hnav] at h
      exact Bool.noConfusion h
    · rw [hlog] at h
      exact Bool.noConfusion h
  · intro h
    rw [h1] at h
    exact Bool.noConfusion h

theorem done_shape_spec (res : StepResults) (stopF : Nat → Bool) (key : String)
    (idx : Nat) (s0 : BotState) (t0 : Nat) (lt : List (String × Bool))
    (h1 : stopF (t0 + 2) = false) :
    PipeSpec res stopF key idx s0 t0
      (addPts (pipeHead s0 key idx t0 ++ s2Ticks (pipeS2 s0 key idx) (t0 + 2) 16)
        (doneExit (pipeS2 s0 key idx) key idx (t0 + 18) lt [1, 2, 5, 8, 10])) := by
  refine PipeSpec.mk ?_ ?_ ?_ ?_ ?_ ?_ ?_ ?_ ?_ ?_ ?_ ?_ ?_ ?_ ?_ ?_ ?_ ?_ ?_ ?_ ?_
  · simp only [addPts, doneExit]
    omega
  · simp only [addPts, doneExit]
    refine forall_mem_head_ticks_tail s0 key idx t0 16 _ _ ?_ ?_ ?_ ?_
    · dsimp only
      omega
    · dsimp only
      omega
    · intro k' hk'
      dsimp
      omega
    · intro pt hpt
      simp only [List.mem_cons, List.not_mem_nil, or_false] at hpt
      rcases hpt with rfl | rfl | rfl | rfl <;> dsimp <;> omega
  · simp [addPts, doneExit, pipeS2, pipeS1]
  · simp [addPts, doneExit, pipeS2, pipeS1, length_setStatus]
  · intro j hj
    simp only [addPts, doneExit, pipeS2, pipeS1]
    rw [get?_setStatus_ne _ _ _ _ hj, get?_setStatus_ne _ _ _ _ hj]
  · simp only [addPts, doneExit]
    refine forall_mem_head_ticks_tail s0 key idx t0 16 _ _ ?_ ?_ ?_ ?_
    · simp [pipeS1]
    · simp [pipeS2, pipeS1]
    · intro k' hk'
      simp [pipeS2, pipeS1]
    · intro pt hpt
      simp only [List.mem_cons, List.not_mem_nil, or_false] at hpt
      rcases hpt with rfl | rfl | rfl | rfl <;> simp [pipeS2, pipeS1]
  · simp only [addPts, doneExit]
    refine forall_mem_head_ticks_tail s0 key idx t0 16 _ _ ?_ ?_ ?_ ?_
    · simp [pipeS1, length_setStatus]
    · simp [pipeS2, pipeS1, length_setStatus]
    · intro k' hk'
      simp [pipeS2, pipeS1, length_setStatus]
    · intro pt hpt
      simp only [List.mem_cons, List.not_mem_nil, or_false] at hpt
      rcases hpt with rfl | rfl | rfl | rfl <;> simp [pipeS2, pipeS1, length_setStatus]
  · simp only [addPts, doneExit]
    refine forall_mem_head_ticks_tail s0 key idx t0 16 _ _ ?_ ?_ ?_ ?_
    · intro j hj
      simp only [pipeS1]
      rw [get?_setStatus_ne _ _ _ _ hj]
    · intro j hj
      simp only [pipeS2, pipeS1]
      rw [get?_setStatus_ne _ _ _ _ hj]
    · intro k' hk' j hj
      simp only [pipeS2, pipeS1]
      rw [get?_setStatus_ne _ _ _ _ hj]
    · intro pt hpt
      simp only [List.mem_cons, List.not_mem_nil, or_false] at hpt
      rcases hpt with rfl | rfl | rfl | rfl <;>
        (intro j hj
         simp only [pipeS2, pipeS1]
         rw [get?_setStatus_ne _ _ _ _ hj]) <;>
        rw [get?_setStatus_ne _ _ _ _ hj]
  · simp only [addPts, doneExit]
    refine forall_mem_head_ticks_tail s0 key idx t0 16 _ _ ?_ ?_ ?_ ?_
    · simp only [entryStatus, pipeS1]
      exact entry_set_ne_pending _ _ _ (by decide)
    · simp only [entryStatus, pipeS2, pipeS1]
      exact entry_set_ne_pending _ _ _ (by decide)
    · intro k' hk'
      simp only [entryStatus, pipeS2, pipeS1]
      exact entry_set_ne_pending _ _ _ (by decide)
    · intro pt hpt
      simp only [List.mem_cons, List.not_mem_nil, or_false] at hpt
      rcases hpt with rfl | rfl | rfl | rfl <;>
        (simp only [entryStatus, pipeS2, pipeS1]
         exact entry_set_ne_pending _ _ _ (by decide))
  · simp [addPts, doneExit]
  · intro hp
    obtain ⟨e, he, _⟩ := entry_pending_elim s0 idx hp
    simp only [addPts, doneExit, entryStatus, pipeS2, pipeS1]
    rw [statusAt_set_self, get?_setStatus_self, he]
    rfl
  · intro hp hs
    obtain ⟨e, he, hpend⟩ := entry_pending_elim s0 idx hp
    have h1c := countD_double_set s0.queue idx e he Status.completed isCompleted
    have h2c := countD_double_set s0.queue idx e he Status.completed isFailed
    rw [hpend] at h1c h2c
    simp [isCompleted, isFailed] at h1c h2c
    obtain ⟨hc, hf⟩ := hs
    simp [addPts, doneExit, sync, pipeS2, pipeS1]
    constructor <;> omega
  · intro hp hs
    obtain ⟨e, he, hpend⟩ := entry_pending_elim s0 idx hp
    have h1c := countD_double_set s0.queue idx e he Status.completed isCompleted
    have h2c := countD_double_set s0.queue idx e he Status.completed isFailed
    rw [hpend] at h1c h2c
    simp [isCompleted, isFailed] at h1c h2c
    obtain ⟨hc, hf⟩ := hs
    simp only [addPts, doneExit]
    refine forall_mem_head_ticks_tail s0 key idx t0 16 _ _ ?_ ?_ ?_ ?_
    · intro _
      exact sync_pipeS1 s0 idx hp ⟨hc, hf⟩
    · intro _
      exact sync_pipeS2 s0 key idx hp ⟨hc, hf⟩
    · intro k' hk' _
      exact sync_pipeS2 s0 key idx hp ⟨hc, hf⟩
    · intro pt hpt
      simp only [List.mem_cons, List.not_mem_nil, or_false] at hpt
      rcases hpt with rfl | rfl | rfl | rfl
      · intro hfalse
        simp at hfalse
      · intro _
        simp [sync, pipeS2, pipeS1]
        constructor <;> omega
      · intro _
        simp [sync, pipeS2, pipeS1]
        constructor <;> omega
      · intro _
        simp [sync, pipeS2, pipeS1]
        constructor <;> omega
  · simp [addPts, doneExit]
  · simp [addPts, doneExit]
  · simp [addPts, doneExit]
  · intro h
    simp [addPts, doneExit] at h
  · exact ⟨5, by simp [addPts, doneExit, checkpointSteps]⟩
  · intro h
    simp [addPts, doneExit] at h
  · intro _ _ _ _
    simp [addPts, doneExit, checkpointSteps]
  · intro h
    rw [h1] at h
    exact Bool.noConfusion h

theorem skip1_spec (res : StepResults) (stopF : Nat → Bool) (key : String)
    (idx : Nat) (s0 : BotState) (t0 : Nat) (hstop : stopF (t0 + 2) = true) :
    PipeSpec res stopF key idx s0 t0
      { pts := pipeHead s0 key idx t0
          ++ [⟨t0 + 2, true, pipeS2 s0 key idx⟩,
              ⟨t0 + 3, true, { pipeS2 s0 key idx with
                queue := setStatus (pipeS2 s0 key idx).queue idx Status.skipped }⟩,
              ⟨t0 + 4, true, { pipeS2 s0 key idx with
                queue := setStatus (pipeS2 s0 key idx).queue idx Status.skipped }⟩],
        st := { pipeS2 s0 key idx with
          queue := setStatus (pipeS2 s0 key idx).queue idx Status.skipped },
        clock := t0 + 5, status := Status.skipped,
        opens := 0, closes := 0, closeCalls := 1,
        localTasks := [], error := none, checkpoints := [1] } := by
  have hmem : ∀ pt ∈ pipeHead s0 key idx t0
      ++ [⟨t0 + 2, true, pipeS2 s0 key idx⟩,
          ⟨t0 + 3, true, { pipeS2 s0 key idx with
            queue := setStatus (pipeS2 s0 key idx).queue idx Status.skipped }⟩,
          ⟨t0 + 4, true, { pipeS2 s0 key idx with
            queue := setStatus (pipeS2 s0 key idx).queue idx Status.skipped }⟩],
      pt = (⟨t0, true, pipeS1 s0 idx⟩ : TracePoint)
      ∨ pt = ⟨t0 + 1, true, pipeS2 s0 key idx⟩
      ∨ pt = ⟨t0 + 2, true, pipeS2 s0 key idx⟩
      ∨ pt = ⟨t0 + 3, true, { pipeS2 s0 key idx with
          queue := setStatus (pipeS2 s0 key idx).queue idx Status.skipped }⟩
      ∨ pt = ⟨t0 + 4, true, { pipeS2 s0 key idx with
          queue := setStatus (pipeS2 s0 key idx).queue idx Status.skipped }⟩ := by
    intro pt hpt
    simpa [pipeHead] using hpt
  refine PipeSpec.mk ?_ ?_ ?_ ?_ ?_ ?_ ?_ ?_ ?_ ?_ ?_ ?_ ?_ ?_ ?_ ?_ ?_ ?_ ?_ ?_ ?_
  · dsimp
    omega
  · intro pt hpt
    rcases hmem pt hpt with rfl | rfl | rfl | rfl | rfl <;> dsimp <;> omega
  · simp [pipeS2, pipeS1]
  · simp [pipeS2, pipeS1, length_setStatus]
  · intro j hj
    simp only [pipeS2, pipeS1]
    rw [get?_setStatus_ne _ _ _ _ hj, get?_setStatus_ne _ _ _ _ hj]
  · intro pt hpt
    rcases hmem pt hpt with rfl | rfl | rfl | rfl | rfl <;> simp [pipeS2, pipeS1]
  · intro pt hpt
    rcases hmem pt hpt with rfl | rfl | rfl | rfl | rfl <;>
      simp [pipeS2, pipeS1, length_setStatus]
  · intro pt hpt
    rcases hmem pt hpt with rfl | rfl | rfl | rfl | rfl <;>
      (intro j hj
       simp only [pipeS2, pipeS1]
       rw [get?_setStatus_ne _ _ _ _ hj]) <;>
      rw [get?_setStatus_ne _ _ _ _ hj]
  · intro pt hpt
    rcases hmem pt hpt with rfl | rfl | rfl | rfl | rfl <;>
      (simp only [entryStatus, pipeS2, pipeS1]
       exact entry_set_ne_pending _ _ _ (by decide))
  · simp
  · intro hp
    obtain ⟨e, he, _⟩ := entry_pending_elim s0 idx hp
    simp only [entryStatus, pipeS2, pipeS1]
    rw [statusAt_set_self, get?_setStatus_self, he]
    rfl
  · intro hp hs
    exact sync_cancel_state s0 key idx hp hs
  · intro hp hs
    intro pt hpt
    rcases hmem pt hpt with rfl | rfl | rfl | rfl | rfl <;> intro _ <;>
      first
        | exact sync_pipeS1 s0 idx hp hs
        | exact sync_pipeS2 s0 key idx hp hs
        | exact sync_cancel_state s0 key idx hp hs
  · simp
  · simp
  · simp
  · intro h
    simp at h
  · exact ⟨1, by simp [checkpointSteps]⟩
  · intro _
    simp
  · intro _ _ _ hstopAll
    rw [hstopAll] at hstop
    exact Bool.noConfusion hstop
  · intro _
    simp

theorem pipe_spec (res : StepResults) (stopF : Nat → Bool) (key : String)
    (idx : Nat) (s0 : BotState) (t0 : Nat) :
    PipeSpec res stopF key idx s0 t0 (run_bot_on_profile res stopF key idx s0 t0) := by
  by_cases h1 : stopF (t0 + 2) = true
  · simp only [run_bot_on_profile]
    rw [if_pos h1]
    exact skip1_spec res stopF key idx s0 t0 h1
  · have h1f : stopF (t0 + 2) = false := by simpa using h1
    simp only [run_bot_on_profile]
    rw [if_neg h1]
    cases hsetup : res.setup with
    | failNoDriver =>
      exact fail_shape_spec res stopF key idx s0 t0 2 (t0 + 4) 0 0 1 [] [1]
        "Failed to setup browser" (by omega) (by omega) (by omega) (by omega)
        (by decide) h1f (Or.inl (by rw [hsetup]; decide))
    | failDriver =>
      exact fail_shape_spec res stopF key idx s0 t0 2 (t0 + 4) 1 1 1 [] [1]
        "Failed to setup browser" (by omega) (by omega) (by omega) (by omega)
        (by decide) h1f (Or.inl (by rw [hsetup]; decide))
    | ok =>
      by_cases h2 : stopF (t0 + 4) = true
      · rw [if_pos h2]
        exact cancel_shape_spec res stopF key idx s0 t0 2 (t0 + 4) 2
          [("browser_setup", true)] [1, 2] (by omega) (by decide) h2
      · rw [if_neg h2]
        by_cases hnav : res.navigate = false
        · rw [if_pos hnav]
          exact fail_shape_spec res stopF key idx s0 t0 4 (t0 + 6) 1 1 2
            [("browser_setup", true)] [1, 2] "Failed to navigate to Facebook"
            (by omega) (by omega) (by omega) (by omega) (by decide) h1f
            (Or.inr (Or.inl hnav))
        · rw [if_neg hnav]
          by_cases hlog : res.login = false
          · rw [if_pos hlog]
            exact fail_shape_spec res stopF key idx s0 t0 5 (t0 + 7) 1 1 2
              [("browser_setup", true), ("navigation", true)] [1, 2]
              "Not logged in - please login to this profile first"
              (by omega) (by omega) (by omega) (by omega) (by decide) h1f
              (Or.inr (Or.inr hlog))
          · rw [if_neg hlog]
            by_cases h3 : stopF (t0 + 8) = true
            · rw [if_pos h3]
              exact cancel_shape_spec res stopF key idx s0 t0 6 (t0 + 8) 3
                [("browser_setup", true), ("navigation", true),
                 ("login_check", true), ("feed_access", res.feedAccess)]
                [1, 2, 5] (by omega) (by decide) h3
            · rw [if_neg h3]
              by_cases h4 : stopF (t0 + 12) = true
              · rw [if_pos h4]
                exact cancel_shape_spec res stopF key idx s0 t0 10 (t0 + 12) 4
                  [("browser_setup", true), ("navigation", true),
                   ("login_check", true), ("feed_access", res.feedAccess),
                   ("browse_feed", true), ("visit_profile", res.visitProfile),
                   ("return_home", res.returnHome)]
                  [1, 2, 5, 8] (by omega) (by decide) h4
              · rw [if_neg h4]
                by_cases h5 : stopF (t0 + 15) = true
                · rw [if_pos h5]
                  exact cancel_shape_spec res stopF key idx s0 t0 13 (t0 + 15) 5
                    [("browser_setup", true), ("navigation", true),
                     ("login_check", true), ("feed_access", res.feedAccess),
                     ("browse_feed", true), ("visit_profile", res.visitProfile),
                     ("return_home", res.returnHome), ("story", res.story),
                     ("like_post", res.likePost)]
                    [1, 2, 5, 8, 10] (by omega) (by decide) h5
                · rw [if_neg h5]
                  exact done_shape_spec res stopF key idx s0 t0 _ h1f

theorem entryStatus_lt_length (s : BotState) (j : Nat) (st : Status)
    (h : entryStatus s j = some st) : j < s.queue.length := by
  unfold entryStatus at h
  cases hq : s.queue[j]? with
  | none => rw [hq] at h; simp at h
  | some e => exact (List.getElem?_eq_some_iff.mp hq).1

theorem entry_set_self (s : BotState) (idx : Nat) (e : QueueEntry) (X : Status)
    (he : s.queue[idx]? = some e) :
    entryStatus { s with queue := setStatus s.queue idx X } idx = some X := by
  unfold entryStatus
  dsimp
  rw [statusAt_set_self, he]
  rfl

theorem entry_set_ne (s : BotState) (idx j : Nat) (X : Status) (hj : j ≠ idx) :
    entryStatus { s with queue := setStatus s.queue idx X } j = entryStatus s j := by
  unfold entryStatus
  dsimp
  rw [get?_setStatus_ne _ _ _ _ hj]

theorem sync_set_skipped (s : BotState) (idx : Nat)
    (hp : entryStatus s idx = some Status.pending) (hs : sync s) :
    sync { s with queue := setStatus s.queue idx Status.skipped } := by
  obtain ⟨e, he, hpend⟩ := entry_pending_elim s idx hp
  unfold sync
  dsimp
  rw [countD_set_pending_nonCF s.queue idx e he hpend Status.skipped isCompleted rfl,
    countD_set_pending_nonCF s.queue idx e he hpend Status.skipped isFailed rfl]
  exact hs

theorem markLoop_spec (items : List (String × Nat)) :
    ∀ (idx : Nat) (s : BotState) (t : Nat),
      MarkSpec items idx s t (markLoop items idx s t).1 (markLoop items idx s t).2 := by
  induction items with
  | nil =>
    intro idx s t
    refine MarkSpec.mk rfl rfl rfl rfl rfl (fun j _ => rfl) (fun j => Or.inl rfl)
      ?_ ?_ ?_ ?_ ?_ ?_ ?_ (fun hs => hs) ?_
    · intro hlen j hj hpend
      have := entryStatus_lt_length s j _ hpend
      simp at hlen
      omega
    · intro pt hpt
      simp [markLoop] at hpt
    · intro pt hpt
      simp [markLoop] at hpt
    · intro pt hpt
      simp [markLoop] at hpt
    · intro pt hpt
      simp [markLoop] at hpt
    · intro pt hpt
      simp [markLoop] at hpt
    · intro pt hpt
      simp [markLoop] at hpt
    · intro hs pt hpt
      simp [markLoop] at hpt
  | cons hd rest ih =>
    intro idx s t
    by_cases hp : entryStatus s idx = some Status.pending
    · obtain ⟨e, he, hpend⟩ := entry_pending_elim s idx hp
      simp only [markLoop, if_pos hp]
      set sk : BotState := { s with queue := setStatus s.queue idx Status.skipped }
        with hsk
      have H := ih (idx + 1) sk (t + 1)
      have hrun : sk.running = s.running := rfl
      have hlen' : sk.queue.length = s.queue.length := by
        simp [hsk, length_setStatus]
      have hne : ∀ j, j ≠ idx → sk.queue[j]? = s.queue[j]? := by
        intro j hj
        simp only [hsk]
        exact get?_setStatus_ne _ _ _ _ hj
      have hskidx : entryStatus sk idx = some Status.skipped :=
        entry_set_self s idx e Status.skipped he
      have hentry_ne : ∀ j, j ≠ idx → entryStatus sk j = entryStatus s j := by
        intro j hj
        unfold entryStatus
        rw [hne j hj]
      have hsync1 : sync s → sync sk := fun hs => sync_set_skipped s idx hp hs
      refine MarkSpec.mk (H.running_eq.trans hrun) (H.completed_eq.trans rfl)
        (H.failed_eq.trans rfl) (H.tr_eq.trans rfl) (H.len_eq.trans hlen')
        ?_ ?_ ?_ ?_ ?_ ?_ ?_ ?_ ?_ (fun hs => H.sync_out (hsync1 hs)) ?_
      · intro j hj
        rw [H.frame_lt j (by omega), hne j (by omega)]
      · intro j
        by_cases hji : j = idx
        · subst hji
          rcases H.frame j with h | h
          · refine Or.inr ⟨hp, ?_⟩
            unfold entryStatus at hskidx ⊢
            rw [h]
            exact hskidx
          · exact Or.inr ⟨hp, h.2⟩
        · rcases H.frame j with h | h
          · exact Or.inl (by rw [h, hne j hji])
          · refine Or.inr ⟨?_, h.2⟩
            rw [← hentry_ne j hji]
            exact h.1
      · intro hlen2 j hj hpend2
        by_cases hji : j = idx
        · subst hji
          rcases H.frame j with h | h
          · unfold entryStatus at hskidx ⊢
            rw [h]
            exact hskidx
          · exact h.2
        · refine H.marks ?_ j (by omega) ?_
          · simp only [List.length_cons] at hlen2
            omega
          · rw [hentry_ne j hji]
            exact hpend2
      · intro pt hpt
        rcases List.mem_cons.mp hpt with rfl | h
        · rfl
        · exact H.pts_stable pt h
      · intro pt hpt
        rcases List.mem_cons.mp hpt with rfl | h
        · simp only [List.length_cons]
          omega
        · obtain ⟨h1, h2⟩ := H.pts_clock pt h
          simp only [List.length_cons]
          omega
      · intro pt hpt
        rcases List.mem_cons.mp hpt with rfl | h
        · exact hrun
        · exact (H.pts_running pt h).trans hrun
      · intro pt hpt
        rcases List.mem_cons.mp hpt with rfl | h
        · exact hlen'
        · exact (H.pts_len pt h).trans hlen'
      · intro pt hpt
        rcases List.mem_cons.mp hpt with rfl | h
        · intro j hj
          exact hne j (by omega)
        · intro j hj
          rw [H.pts_frame_lt pt h j (by omega), hne j (by omega)]
      · intro pt hpt
        rcases List.mem_cons.mp hpt with rfl | h
        · intro j
          by_cases hji : j = idx
          · subst hji
            exact Or.inr ⟨hp, hskidx⟩
          · exact Or.inl (hne j hji)
        · intro j
          by_cases hji : j = idx
          · subst hji
            rcases H.pts_frame pt h j with h2 | h2
            · refine Or.inr ⟨hp, ?_⟩
              unfold entryStatus at hskidx ⊢
              rw [h2]
              exact hskidx
            · exact Or.inr ⟨hp, h2.2⟩
          · rcases H.pts_frame pt h j with h2 | h2
            · exact Or.inl (by rw [h2, hne j hji])
            · refine Or.inr ⟨?_, h2.2⟩
              rw [← hentry_ne j hji]
              exact h2.1
      · intro hs pt hpt
        rcases List.mem_cons.mp hpt with rfl | h
        · exact hsync1 hs
        · exact H.pts_sync (hsync1 hs) pt h
    · simp only [markLoop, if_neg hp]
      have H := ih (idx + 1) s (t + 1)
      refine MarkSpec.mk H.running_eq H.completed_eq H.failed_eq H.tr_eq H.len_eq
        ?_ H.frame ?_ ?_ ?_ ?_ ?_ ?_ ?_ H.sync_out ?_
      · intro j hj
        exact H.frame_lt j (by omega)
      · intro hlen2 j hj hpend2
        by_cases hji : j = idx
        · subst hji
          exact absurd hpend2 hp
        · refine H.marks ?_ j (by omega) hpend2
          simp only [List.length_cons] at hlen2
          omega
      · intro pt hpt
        rcases List.mem_cons.mp hpt with rfl | h
        · rfl
        · exact H.pts_stable pt h
      · intro pt hpt
        rcases List.mem_cons.mp hpt with rfl | h
        · simp only [List.length_cons]
          omega
        · obtain ⟨h1, h2⟩ := H.pts_clock pt h
          simp only [List.length_cons]
          omega
      · intro pt hpt
        rcases List.mem_cons.mp hpt with rfl | h
        · rfl
        · exact H.pts_running pt h
      · intro pt hpt
        rcases List.mem_cons.mp hpt with rfl | h
        · rfl
        · exact H.pts_len pt h
      · intro pt hpt
        rcases List.mem_cons.mp hpt with rfl | h
        · intro j hj
          rfl
        · intro j hj
          exact H.pts_frame_lt pt h j (by omega)
      · intro pt hpt
        rcases List.mem_cons.mp hpt with rfl | h
        · intro j
          exact Or.inl rfl
        · exact H.pts_frame pt h
      · intro hs pt hpt
        rcases List.mem_cons.mp hpt with rfl | h
        · exact hs
        · exact H.pts_sync hs pt h

theorem loop_spec (db : List Profile) (resFor : Nat → StepResults)
    (stopF : Nat → Bool) :
    ∀ (items : List (String × Nat)) (idx : Nat) (s : BotState) (t : Nat),
      s.queue.length = idx + items.length →
      (∀ j, idx ≤ j → j < s.queue.length →
        entryStatus s j = some Status.pending) →
      sync s →
      LoopSpec db resFor stopF items idx s t
        (runLoop db resFor stopF items idx s t) := by
  intro items
  induction items with
  | nil =>
    intro idx s t hlen hpend hsync
    refine LoopSpec.mk (le_refl t) ?_ rfl rfl (fun j _ => rfl) ?_ hsync ?_ ?_ ?_ ?_ ?_ ?_
    · intro pt hpt
      simp [runLoop] at hpt
    · intro pt hpt
      simp [runLoop] at hpt
    · intro pt hpt
      simp [runLoop] at hpt
    · intro _ i hi hp
      have := entryStatus_lt_length s i _ hp
      simp at hlen
      omega
    · intro _ pt hpt
      simp [runLoop] at hpt
    · intro k nm r hk
      simp at hk
    · intro i hi
      simp [runLoop] at hi
    · intro j hj hjlt
      simp at hlen
      omega
  | cons hd rest ih =>
    obtain ⟨nm, r⟩ := hd
    intro idx s t hlen hpend hsync
    have hidxlt : idx < s.queue.length := by
      simp only [List.length_cons] at hlen
      omega
    have hpidx : entryStatus s idx = some Status.pending :=
      hpend idx (le_refl idx) hidxlt
    by_cases hstop : stopF t = true
    · simp only [runLoop, if_pos hstop]
      have M := markLoop_spec ((nm, r) :: rest) idx s (t + 1)
      have hcover : s.queue.length ≤ idx + ((nm, r) :: rest).length := le_of_eq hlen
      refine LoopSpec.mk ?_ ?_ M.running_eq M.len_eq M.frame_lt ?_
        (M.sync_out hsync) ?_ ?_ ?_ ?_ ?_ ?_
      · dsimp
        omega
      · intro pt hpt
        rcases List.mem_cons.mp hpt with rfl | h
        · dsimp
          omega
        · obtain ⟨h1, h2⟩ := M.pts_clock pt h
          dsimp
          simp only [List.length_cons] at h2 ⊢
          constructor <;> omega
      · intro pt hpt
        rcases List.mem_cons.mp hpt with rfl | h
        · intro j hj
          rfl
        · exact M.pts_frame_lt pt h
      · intro pt hpt
        rcases List.mem_cons.mp hpt with rfl | h
        · intro _
          exact hsync
        · intro _
          exact M.pts_sync hsync pt h
      · intro _ i hi hp
        exact M.marks hcover i hi hp
      · intro hmono pt hpt i hi hflag hp2
        rcases List.mem_cons.mp hpt with rfl | h
        · exact M.marks hcover i hi hp2
        · rcases M.pts_frame pt h i with h2 | h2
          · refine M.marks hcover i hi ?_
            unfold entryStatus at hp2 ⊢
            rw [← h2]
            exact hp2
          · rw [h2.2] at hp2
            simp at hp2
      · intro k nm' r' hk hnone
        have hklen : k < ((nm, r) :: rest).length :=
          (List.getElem?_eq_some_iff.mp hk).1
        have hklt : idx + k < s.queue.length := by
          simp only [List.length_cons] at hklen hlen ⊢
          omega
        have hpk : entryStatus s (idx + k) = some Status.pending :=
          hpend (idx + k) (by omega) hklt
        refine ⟨M.marks hcover (idx + k) (by omega) hpk, by simp, ?_⟩
        intro pt hpt
        rcases List.mem_cons.mp hpt with rfl | h
        · rw [hpk]
          simp
        · rcases M.pts_frame pt h (idx + k) with h2 | h2
          · unfold entryStatus at hpk ⊢
            rw [h2, hpk]
            simp
          · rw [h2.2]
            simp
      · intro i hi
        simp at hi
      · intro j hj hjlt
        exact Or.inl (M.marks hcover j hj (hpend j hj hjlt))
    · have hstopf : stopF t = false := by simpa using hstop
      simp only [runLoop, if_neg hstop]
      cases hdict : profilesDict db nm with
      | none =>
        simp only [hdict]
        obtain ⟨e, he, _⟩ := entry_pending_elim s idx hpidx
        set s' : BotState := { s with queue := setStatus s.queue idx Status.skipped }
          with hs'
        have hs'len : s'.queue.length = s.queue.length := by
          simp [hs', length_setStatus]
        have hs'ne : ∀ j, j ≠ idx → entryStatus s' j = entryStatus s j := by
          intro j hj
          exact entry_set_ne s idx j Status.skipped hj
        have hs'q : ∀ j, j ≠ idx → s'.queue[j]? = s.queue[j]? := by
          intro j hj
          simp only [hs']
          exact get?_setStatus_ne _ _ _ _ hj
        have hs'idx : entryStatus s' idx = some Status.skipped :=
          entry_set_self s idx e Status.skipped he
        have H := ih (idx + 1) s' (t + 2)
          (by rw [hs'len]; simp only [List.length_cons] at hlen; omega)
          (by
            intro j hj hjlt
            rw [hs'ne j (by omega)]
            rw [hs'len] at hjlt
            exact hpend j (by omega) hjlt)
          (sync_set_skipped s idx hpidx hsync)
        refine LoopSpec.mk ?_ ?_ (H.running_eq.trans rfl) (H.len_eq.trans hs'len)
          ?_ ?_ H.sync_out ?_ ?_ ?_ ?_ ?_ ?_
        · have := H.clock_ge
          dsimp
          omega
        · intro pt hpt
          rcases List.mem_cons.mp hpt with rfl | hpt2
          · have := H.clock_ge
            dsimp
            omega
          · rcases List.mem_cons.mp hpt2 with rfl | hpt3
            · have := H.clock_ge
              dsimp
              omega
            · obtain ⟨h1, h2⟩ := H.pts_clock pt hpt3
              dsimp
              constructor <;> omega
        · intro j hj
          rw [H.frame_lt j (by omega), hs'q j (by omega)]
        · intro pt hpt
          rcases List.mem_cons.mp hpt with rfl | hpt2
          · intro j hj
            rfl
          · rcases List.mem_cons.mp hpt2 with rfl | hpt3
            · intro j hj
              exact hs'q j (by omega)
            · intro j hj
              rw [H.pts_frame_lt pt hpt3 j (by omega), hs'q j (by omega)]
        · intro pt hpt
          rcases List.mem_cons.mp hpt with rfl | hpt2
          · intro _
            exact hsync
          · rcases List.mem_cons.mp hpt2 with rfl | hpt3
            · intro _
              exact sync_set_skipped s idx hpidx hsync
            · exact H.pts_sync pt hpt3
        · intro hq
          rw [hq] at hstopf
          exact Bool.noConfusion hstopf
        · intro hmono pt hpt i hi hflag hp2
          rcases List.mem_cons.mp hpt with rfl | hpt2
          · rw [hflag] at hstopf
            exact Bool.noConfusion hstopf
          · rcases List.mem_cons.mp hpt2 with rfl | hpt3
            · have hine : i ≠ idx := by
                intro hcontra
                subst hcontra
                rw [hs'idx] at hp2
                simp at hp2
              have := H.entry_stop (hmono (t + 1) (t + 2) (by omega) hflag)
                i (by omega) hp2
              exact this
            · by_cases hii : i = idx
              · subst hii
                have := H.pts_frame_lt pt hpt3 i (by omega)
                unfold entryStatus at hp2 hs'idx
                rw [this] at hp2
                rw [hp2] at hs'idx
                simp at hs'idx
              · exact H.c1 hmono pt hpt3 i (by omega) hflag hp2
        · intro k nm' r' hk hnone
          cases k with
          | zero =>
            simp at hk
            refine ⟨?_, ?_, ?_⟩
            · show entryStatus (runLoop db resFor stopF rest (idx + 1) s'
                (t + 2)).st idx = some Status.skipped
              have hfr := H.frame_lt idx (by omega)
              unfold entryStatus at hs'idx ⊢
              rw [hfr]
              exact hs'idx
            · intro hmem
              have := H.invoked_ge idx hmem
              omega
            · intro pt hpt
              rcases List.mem_cons.mp hpt with rfl | hpt2
              · show entryStatus s (idx + 0) ≠ some Status.running
                rw [Nat.add_zero, hpidx]
                simp
              · rcases List.mem_cons.mp hpt2 with rfl | hpt3
                · show entryStatus s' (idx + 0) ≠ some Status.running
                  rw [Nat.add_zero, hs'idx]
                  simp
                · have := H.pts_frame_lt pt hpt3 idx (by omega)
                  unfold entryStatus at hs'idx ⊢
                  rw [Nat.add_zero, this]
                  rw [hs'idx]
                  simp
          | succ k =>
            simp only [List.getElem?_cons_succ] at hk
            have hidxk : idx + (k + 1) = (idx + 1) + k := by omega
            have H8 := H.c8 k nm' r' hk hnone
            refine ⟨?_, ?_, ?_⟩
            · rw [hidxk]
              exact H8.1
            · rw [hidxk]
              exact H8.2.1
            · intro pt hpt
              rcases List.mem_cons.mp hpt with rfl | hpt2
              · have hklen : k < rest.length := (List.getElem?_eq_some_iff.mp hk).1
                have hklt : idx + (k + 1) < s.queue.length := by
                  simp only [List.length_cons] at hlen
                  omega
                rw [hpend (idx + (k + 1)) (by omega) hklt]
                simp
              · rcases List.mem_cons.mp hpt2 with rfl | hpt3
                · have hklen : k < rest.length := (List.getElem?_eq_some_iff.mp hk).1
                  have hklt : idx + (k + 1) < s.queue.length := by
                    simp only [List.length_cons] at hlen
                    omega
                  rw [hs'ne (idx + (k + 1)) (by omega),
                    hpend (idx + (k + 1)) (by omega) hklt]
                  simp
                · rw [hidxk]
                  exact H8.2.2 pt hpt3
        · intro i hi
          have := H.invoked_ge i hi
          omega
        · intro j hj hjlt
          by_cases hji : j = idx
          · subst hji
            refine Or.inl ?_
            have hfr := H.frame_lt j (by omega)
            unfold entryStatus at hs'idx ⊢
            rw [hfr]
            exact hs'idx
          · refine H.final_done j (by omega) ?_
            rw [hs'len]
            exact hjlt
      | some p =>
        simp only [hdict]
        have P := pipe_spec (resFor idx) stopF (stdKey nm r) idx s (t + 1)
        have hreclen : (run_bot_on_profile (resFor idx) stopF (stdKey nm r) idx
            s (t + 1)).st.queue.length = (idx + 1) + rest.length := by
          rw [P.st_len]
          simp only [List.length_cons] at hlen
          omega
        have hrecpend : ∀ j, idx + 1 ≤ j →
            j < (run_bot_on_profile (resFor idx) stopF (stdKey nm r) idx
              s (t + 1)).st.queue.length →
            entryStatus (run_bot_on_profile (resFor idx) stopF (stdKey nm r) idx
              s (t + 1)).st j = some Status.pending := by
          intro j hj hjlt
          unfold entryStatus
          rw [P.st_frame j (by omega)]
          have : j < s.queue.length := by
            rw [← P.st_len]
            exact hjlt
          exact hpend j (by omega) this
        have H := ih (idx + 1)
          (run_bot_on_profile (resFor idx) stopF (stdKey nm r) idx s (t + 1)).st
          (run_bot_on_profile (resFor idx) stopF (stdKey nm r) idx s (t + 1)).clock
          hreclen hrecpend (P.sync_out hpidx hsync)
        refine LoopSpec.mk ?_ ?_ (H.running_eq.trans P.st_running)
          (H.len_eq.trans P.st_len) ?_ ?_ H.sync_out ?_ ?_ ?_ ?_ ?_ ?_
        · have h1 := P.clock_lt
          have h2 := H.clock_ge
          dsimp
          omega
        · intro pt hpt
          rcases List.mem_cons.mp hpt with rfl | hpt2
          · have h1 := P.clock_lt
            have h2 := H.clock_ge
            dsimp
            omega
          · rcases List.mem_append.mp hpt2 with hpt3 | hpt3
            · obtain ⟨h1, h2⟩ := P.pts_clock pt hpt3
              have h3 := H.clock_ge
              dsimp
              constructor <;> omega
            · obtain ⟨h1, h2⟩ := H.pts_clock pt hpt3
              have h3 := P.clock_lt
              dsimp
              constructor <;> omega
        · intro j hj
          rw [H.frame_lt j (by omega), P.st_frame j (by omega)]
        · intro pt hpt
          rcases List.mem_cons.mp hpt with rfl | hpt2
          · intro j hj
            rfl
          · rcases List.mem_append.mp hpt2 with hpt3 | hpt3
            · intro j hj
              exact P.pts_frame pt hpt3 j (by omega)
            · intro j hj
              rw [H.pts_frame_lt pt hpt3 j (by omega), P.st_frame j (by omega)]
        · intro pt hpt
          rcases List.mem_cons.mp hpt with rfl | hpt2
          · intro _
            exact hsync
          · rcases List.mem_append.mp hpt2 with hpt3 | hpt3
            · exact P.sync_pts hpidx hsync pt hpt3
            · exact H.pts_sync pt hpt3
        · intro hq
          rw [hq] at hstopf
          exact Bool.noConfusion hstopf
        · intro hmono pt hpt i hi hflag hp2
          rcases List.mem_cons.mp hpt with rfl | hpt2
          · rw [hflag] at hstopf
            exact Bool.noConfusion hstopf
          · rcases List.mem_append.mp hpt2 with hpt3 | hpt3
            · have hine : i ≠ idx := by
                intro hcontra
                subst hcontra
                exact P.pts_idx pt hpt3 hp2
              have hpend_s : entryStatus s i = some Status.pending := by
                unfold entryStatus at hp2 ⊢
                rw [← P.pts_frame pt hpt3 i hine]
                exact hp2
              have hpend_rec : entryStatus (run_bot_on_profile (resFor idx) stopF
                  (stdKey nm r) idx s (t + 1)).st i = some Status.pending := by
                unfold entryStatus at hpend_s ⊢
                rw [P.st_frame i hine]
                exact hpend_s
              have hclk := (P.pts_clock pt hpt3).2
              exact H.entry_stop
                (hmono pt.clock _ (by omega) hflag) i (by omega) hpend_rec
            · by_cases hii : i = idx
              · subst hii
                have hfr := H.pts_frame_lt pt hpt3 i (by omega)
                have hterm := P.st_idx hpidx
                unfold entryStatus at hp2 hterm
                rw [hfr] at hp2
                rw [hp2] at hterm
                rcases P.status_terminal with h | h | h <;>
                  (rw [h] at hterm; simp at hterm)
              · exact H.c1 hmono pt hpt3 i (by omega) hflag hp2
        · intro k nm' r' hk hnone
          cases k with
          | zero =>
            simp at hk
            rw [hk.1] at hdict
            rw [hdict] at hnone
            exact Option.noConfusion hnone
          | succ k =>
            simp only [List.getElem?_cons_succ] at hk
            have hidxk : idx + (k + 1) = (idx + 1) + k := by omega
            have H8 := H.c8 k nm' r' hk hnone
            refine ⟨?_, ?_, ?_⟩
            · rw [hidxk]
              exact H8.1
            · rw [hidxk]
              intro hmem
              rcases List.mem_cons.mp hmem with hcontra | hmem2
              · omega
              · exact H8.2.1 hmem2
            · intro pt hpt
              have hklen : k < rest.length := (List.getElem?_eq_some_iff.mp hk).1
              have hklt : idx + (k + 1) < s.queue.length := by
                simp only [List.length_cons] at hlen
                omega
              rcases List.mem_cons.mp hpt with rfl | hpt2
              · show entryStatus s (idx + (k + 1)) ≠ some Status.running
                rw [hpend (idx + (k + 1)) (by omega) hklt]
                simp
              · rcases List.mem_append.mp hpt2 with hpt3 | hpt3
                · unfold entryStatus
                  rw [P.pts_frame pt hpt3 (idx + (k + 1)) (by omega)]
                  have := hpend (idx + (k + 1)) (by omega) hklt
                  unfold entryStatus at this
                  rw [this]
                  simp
                · rw [hidxk]
                  exact H8.2.2 pt hpt3
        · intro i hi
          rcases List.mem_cons.mp hi with rfl | hi2
          · exact le_refl i
          · have := H.invoked_ge i hi2
            omega
        · intro j hj hjlt
          by_cases hji : j = idx
          · subst hji
            have hfr := H.frame_lt j (by omega)
            have hterm := P.st_idx hpidx
            unfold entryStatus at hterm ⊢
            rw [hfr]
            rcases P.status_terminal with h | h | h
            · exact Or.inl (by rw [hterm, h])
            · exact Or.inr (Or.inl (by rw [hterm, h]))
            · exact Or.inr (Or.inr (by rw [hterm, h]))
          · refine H.final_done j (by omega) ?_
            rw [P.st_len]
            exact hjlt

theorem foldl_max_le_self (l : List Profile) (acc : Int) :
    acc ≤ l.foldl (fun m p => max m p.id) acc := by
  induction l generalizing acc with
  | nil => simp
  | cons p rest ih => exact le_trans (le_max_left _ _) (ih (max acc p.id))

theorem mem_le_foldl_max (l : List Profile) :
    ∀ (acc : Int) (p : Profile), p ∈ l →
      p.id ≤ l.foldl (fun m q => max m q.id) acc := by
  induction l with
  | nil =>
    intro acc p hp
    simp at hp
  | cons q rest ih =>
    intro acc p hp
    rcases List.mem_cons.mp hp with h | h
    · subst h
      exact le_trans (le_max_right acc p.id) (foldl_max_le_self rest _)
    · exact ih _ p h

theorem le_maxId (l : List Profile) (p : Profile) (hp : p ∈ l) :
    p.id ≤ maxId l :=
  mem_le_foldl_max l 0 p hp

theorem buildQueue_length (sel : List String) (L : Nat) :
    (buildQueue sel L).length = sel.length * L := by
  induction L with
  | zero => simp [buildQueue]
  | succ n ih =>
    unfold buildQueue at *
    rw [List.range_succ, List.flatMap_append, List.length_append, ih]
    simp [Nat.mul_succ]

theorem buildQueue_pending (sel : List String) (L : Nat) :
    ∀ e ∈ buildQueue sel L, e.status = Status.pending := by
  intro e he
  simp only [buildQueue, List.mem_flatMap, List.mem_map] at he
  obtain ⟨r, _, nm, _, rfl⟩ := he
  rfl

theorem entry_elim (s : BotState) (idx : Nat) (st : Status)
    (hp : entryStatus s idx = some st) :
    ∃ e, s.queue[idx]? = some e ∧ e.status = st := by
  unfold entryStatus at hp
  cases h : s.queue[idx]? with
  | none => rw [h] at hp; simp at hp
  | some e =>
    rw [h] at hp
    simp at hp
    exact ⟨e, rfl, hp⟩

theorem countD_eq_zero (q : List QueueEntry) (p : Status → Bool)
    (h : ∀ e ∈ q, p e.status = false) : countD q p = 0 := by
  induction q with
  | nil => rfl
  | cons e rest ih =>
    rw [countD_cons, h e (List.mem_cons_self e rest)]
    simp
    exact ih (fun e' he' => h e' (List.mem_cons_of_mem e he'))

theorem initial_pending (selected : List String) (loops : Nat) :
    ∀ j, 0 ≤ j →
      j < (⟨true, buildQueue selected loops, [], [], []⟩ : BotState).queue.length →
      entryStatus ⟨true, buildQueue selected loops, [], [], []⟩ j
        = some Status.pending := by
  intro j _ hj
  unfold entryStatus
  dsimp at hj ⊢
  have hq : ∃ e, (buildQueue selected loops)[j]? = some e := by
    rw [List.getElem?_eq_getElem hj]
    exact ⟨_, rfl⟩
  obtain ⟨e, he⟩ := hq
  rw [he]
  have hmem : e ∈ buildQueue selected loops := List.getElem?_mem he
  simp [buildQueue_pending selected loops e hmem]

theorem sync_initial (selected : List String) (loops : Nat) :
    sync ⟨true, buildQueue selected loops, [], [], []⟩ := by
  unfold sync
  dsimp
  constructor <;>
    (refine countD_eq_zero _ _ ?_
     intro e he
     rw [buildQueue_pending selected loops e he]
     rfl)

theorem countD_pos_of_entry (s : BotState) (j : Nat)
    (h : entryStatus s j = some Status.skipped) :
    0 < countD s.queue isSkipped := by
  obtain ⟨e, he, hst⟩ := entry_elim s j Status.skipped h
  have hmem : e ∈ s.queue := List.getElem?_mem he
  have hfil : e ∈ s.queue.filter (fun x => isSkipped x.status) :=
    List.mem_filter.mpr ⟨hmem, by simp [isSkipped, hst]⟩
  unfold countD
  exact List.length_pos.mpr (List.ne_nil_of_mem hfil)

theorem flatMap_uniform_getElem {α β : Type} (f : α → List β) (P : Nat)
    (hP : ∀ a, (f a).length = P) :
    ∀ (l : List α) (r j : Nat) (a : α), j < P → l[r]? = some a →
      (l.flatMap f)[r * P + j]? = (f a)[j]? := by
  intro l
  induction l with
  | nil =>
    intro r j a _ h
    simp at h
  | cons b rest ih =>
    intro r j a hj h
    cases r with
    | zero =>
      simp at h
      subst h
      rw [List.flatMap_cons, Nat.zero_mul, Nat.zero_add,
        List.getElem?_append_left (by rw [hP b]; exact hj)]
    | succ r =>
      simp at h
      rw [List.flatMap_cons]
      have hlen : (f b).length = P := hP b
      have hidx : (r + 1) * P + j = (f b).length + (r * P + j) := by
        rw [hlen]; ring
      rw [hidx, List.getElem?_append_right (by omega)]
      have : (f b).length + (r * P + j) - (f b).length = r * P + j := by omega
      rw [this]
      exact ih r j a hj h

/-- C9 (amended): each profile added by `add_profile` receives an id
strictly greater than every id currently stored (hence unique among the
stored profiles), and is appended at the end of the store. Ids of deleted
profiles can be reassigned, so the id is not strictly greater than every
id ever previously assigned. -/
theorem add_profile_id_monotone (profiles : List Profile) (nm pth now : String)
    (db' : List Profile) (np : Profile)
    (h : add_profile profiles nm pth now = some (db', np)) :
    (∀ p ∈ profiles, p.id < np.id) ∧ db' = profiles ++ [np] := by
  unfold add_profile at h
  split at h
  · exact absurd h (by simp)
  · simp only [Option.some.injEq, Prod.mk.injEq] at h
    obtain ⟨h1, h2⟩ := h
    subst h1 h2
    refine ⟨fun p hp => ?_, rfl⟩
    have := le_maxId profiles p hp
    simp only []
    omega

theorem add_profile_id_monotone_witness :
    (⟨1, "a", "p1", ""⟩ : Profile).id < (2 : Int) := by
  have h := add_profile_id_monotone dbA "b" "p2" ""
    (dbA ++ [⟨2, "b", "p2", ""⟩]) ⟨2, "b", "p2", ""⟩ (by decide)
  exact h.1 ⟨1, "a", "p1", ""⟩ (by simp [dbA])

/-- C9 counterexample: after adding profiles with ids 1 and 2 and deleting
the one with id 2, the next `add_profile` assigns id 2 again — an id that
was previously assigned — so the new id is not strictly greater than every
id ever previously assigned. -/
theorem add_profile_id_reuse_counterexample :
    add_profile [] "a" "p1" "" = some ([⟨1, "a", "p1", ""⟩], ⟨1, "a", "p1", ""⟩)
    ∧ add_profile [⟨1, "a", "p1", ""⟩] "b" "p2" ""
        = some ([⟨1, "a", "p1", ""⟩, ⟨2, "b", "p2", ""⟩], ⟨2, "b", "p2", ""⟩)
    ∧ delete_profile [⟨1, "a", "p1", ""⟩, ⟨2, "b", "p2", ""⟩] 2 = [⟨1, "a", "p1", ""⟩]
    ∧ add_profile [⟨1, "a", "p1", ""⟩] "c" "p3" ""
        = some ([⟨1, "a", "p1", ""⟩, ⟨2, "c", "p3", ""⟩], ⟨2, "c", "p3", ""⟩)
    ∧ ¬ ((2 : Int) > 2) := by
  refine ⟨by decide, by decide, by decide, by decide, by decide⟩

/-- C10: `update_profile` performs no duplicate-path check: updating
profile 2's path to profile 1's existing path succeeds and leaves two
stored profiles with the same path, while `add_profile` rejects that same
duplicate path. -/
theorem update_profile_no_path_check :
    update_profile [⟨1, "a", "p1", ""⟩, ⟨2, "b", "p2", ""⟩] 2 none (some "p1")
      = [⟨1, "a", "p1", ""⟩, ⟨2, "b", "p1", ""⟩]
    ∧ (update_profile [⟨1, "a", "p1", ""⟩, ⟨2, "b", "p2", ""⟩] 2 none
        (some "p1")).map Profile.path = ["p1", "p1"]
    ∧ add_profile [⟨1, "a", "p1", ""⟩, ⟨2, "b", "p2", ""⟩] "c" "p1" "" = none := by
  refine ⟨by decide, by decide, by decide⟩

/-- C5: after clamping the loops input to `[1, 100]` (non-integer or
below-1 input coerces to 1), the queue built at run start has exactly
`P * loops` entries, all pending, in round-major order: the entry at index
`r * P + j` is profile `j` of round `r + 1`. -/
theorem queue_build_spec (selected : List String) (loopsIn : Option Int) :
    (1 ≤ (validate_loops loopsIn).toNat ∧ (validate_loops loopsIn).toNat ≤ 100)
    ∧ validate_loops none = 1
    ∧ (∀ n : Int, n < 1 → validate_loops (some n) = 1)
    ∧ (buildQueue selected (validate_loops loopsIn).toNat).length
        = selected.length * (validate_loops loopsIn).toNat
    ∧ (∀ e ∈ buildQueue selected (validate_loops loopsIn).toNat,
        e.status = Status.pending)
    ∧ (∀ r j nm, r < (validate_loops loopsIn).toNat → selected[j]? = some nm →
        (buildQueue selected (validate_loops loopsIn).toNat)[r * selected.length + j]?
          = some ⟨nm, r + 1, Status.pending⟩) := by
  refine ⟨?_, rfl, ?_, buildQueue_length _ _, buildQueue_pending _ _, ?_⟩
  · cases loopsIn with
    | none => decide
    | some l =>
      simp only [validate_loops]
      split <;> split <;> omega
  · intro n hn
    simp only [validate_loops]
    rw [if_pos hn]
    rfl
  · intro r j nm hr hj
    have hjlen : j < selected.length := by
      by_contra hc
      rw [List.getElem?_eq_none (by omega)] at hj
      exact absurd hj (by simp)
    have := flatMap_uniform_getElem
      (fun r => selected.map fun nm =>
        ({ profile := nm, round := r + 1, status := Status.pending } : QueueEntry))
      selected.length (by intro a; simp) (List.range (validate_loops loopsIn).toNat)
      r j r hjlen (by rw [List.getElem?_range hr])
    rw [buildQueue, this, List.getElem?_map, hj]
    rfl

/-- C2 counterexample: on a full run (no stop, all steps succeed) the
pipeline consults the cancellation flag before steps 1, 2, 5, 8 and 10
(the comment step), not before step 9 (like first post) as claimed. -/
theorem checkpoint_positions_counterexample :
    (run_bot_on_profile allOk noStop "a_R1" 0 stA 0).checkpoints = [1, 2, 5, 8, 10]
    ∧ (run_bot_on_profile allOk noStop "a_R1" 0 stA 0).checkpoints ≠ [1, 2, 5, 8, 9] := by
  constructor
  · decide
  · decide

/-- C2 (amended): the cancellation flag is consulted at up to five
checkpoints, in order, before steps 1, 2, 5, 8 and 10 (the consulted list
is always a front segment of `[1, 2, 5, 8, 10]`, and equals it on an
uncancelled run whose hard-fail steps succeed). At each of the five
checkpoints, if execution reaches it with the flag set, the pipeline
aborts immediately — no later checkpoint is consulted — and marks the
entry skipped (not failed, no error recorded), releasing the session if
one is open: at the first checkpoint nothing has been opened (0 opens,
0 quits), and at each of the four later checkpoints the single opened
session is closed (1 open, 2 quit calls). -/
theorem checkpoint_discipline (res : StepResults) (stopF : Nat → Bool)
    (key : String) (idx : Nat) (s0 : BotState) (t0 : Nat) :
    (∃ k, (run_bot_on_profile res stopF key idx s0 t0).checkpoints
        = checkpointSteps.take k)
    ∧ (res.setup = SetupOutcome.ok → res.navigate = true → res.login = true →
        (∀ n, stopF n = false) →
        (run_bot_on_profile res stopF key idx s0 t0).checkpoints = checkpointSteps)
    ∧ (stopF (t0 + 2) = true →
        (run_bot_on_profile res stopF key idx s0 t0).status = Status.skipped
        ∧ (run_bot_on_profile res stopF key idx s0 t0).checkpoints = [1]
        ∧ (run_bot_on_profile res stopF key idx s0 t0).opens = 0
        ∧ (run_bot_on_profile res stopF key idx s0 t0).closes = 0)
    ∧ (stopF (t0 + 2) = false → res.setup = SetupOutcome.ok →
        stopF (t0 + 4) = true →
        (run_bot_on_profile res stopF key idx s0 t0).status = Status.skipped
        ∧ (run_bot_on_profile res stopF key idx s0 t0).checkpoints = [1, 2]
        ∧ (run_bot_on_profile res stopF key idx s0 t0).opens = 1
        ∧ (run_bot_on_profile res stopF key idx s0 t0).closes = 2)
    ∧ (stopF (t0 + 2) = false → res.setup = SetupOutcome.ok →
        stopF (t0 + 4) = false → res.navigate = true → res.login = true →
        stopF (t0 + 8) = true →
        (run_bot_on_profile res stopF key idx s0 t0).status = Status.skipped
        ∧ (run_bot_on_profile res stopF key idx s0 t0).checkpoints = [1, 2, 5]
        ∧ (run_bot_on_profile res stopF key idx s0 t0).opens = 1
        ∧ (run_bot_on_profile res stopF key idx s0 t0).closes = 2)
    ∧ (stopF (t0 + 2) = false → res.setup = SetupOutcome.ok →
        stopF (t0 + 4) = false → res.navigate = true → res.login = true →
        stopF (t0 + 8) = false → stopF (t0 + 12) = true →
        (run_bot_on_profile res stopF key idx s0 t0).status = Status.skipped
        ∧ (run_bot_on_profile res stopF key idx s0 t0).checkpoints = [1, 2, 5, 8]
        ∧ (run_bot_on_profile res stopF key idx s0 t0).opens = 1
        ∧ (run_bot_on_profile res stopF key idx s0 t0).closes = 2)
    ∧ (stopF (t0 + 2) = false → res.setup = SetupOutcome.ok →
        stopF (t0 + 4) = false → res.navigate = true → res.login = true →
        stopF (t0 + 8) = false → stopF (t0 + 12) = false →
        stopF (t0 + 15) = true →
        (run_bot_on_profile res stopF key idx s0 t0).status = Status.skipped
        ∧ (run_bot_on_profile res stopF key idx s0 t0).checkpoints
            = [1, 2, 5, 8, 10]
        ∧ (run_bot_on_profile res stopF key idx s0 t0).opens = 1
        ∧ (run_bot_on_profile res stopF key idx s0 t0).closes = 2)
    ∧ ((run_bot_on_profile res stopF key idx s0 t0).status = Status.skipped →
        (run_bot_on_profile res stopF key idx s0 t0).error = none
        ∧ (run_bot_on_profile res stopF key idx s0 t0).opens
            ≤ (run_bot_on_profile res stopF key idx s0 t0).closes) := by
  have h := pipe_spec res stopF key idx s0 t0
  refine ⟨h.cps_take, h.cps_full, ?_, ?_, ?_, ?_, ?_,
    fun hs => ⟨h.skip_err hs, h.opens_le_closes⟩⟩
  · intro h1
    simp only [run_bot_on_profile, h1]
    simp [addPts, cancelExit]
  · intro h1 hsetup h2
    simp only [run_bot_on_profile, h1, hsetup, h2]
    simp [addPts, cancelExit]
  · intro h1 hsetup h2 hnav hlog h3
    simp only [run_bot_on_profile, h1, hsetup, h2, hnav, hlog, h3]
    simp [addPts, cancelExit]
  · intro h1 hsetup h2 hnav hlog h3 h4
    simp only [run_bot_on_profile, h1, hsetup, h2, hnav, hlog, h3, h4]
    simp [addPts, cancelExit]
  · intro h1 hsetup h2 hnav hlog h3 h4 h5
    simp only [run_bot_on_profile, h1, hsetup, h2, hnav, hlog, h3, h4, h5]
    simp [addPts, cancelExit]

theorem checkpoint_discipline_witness :
    (run_bot_on_profile allOk noStop "a_R1" 0 stA 0).checkpoints = checkpointSteps
    ∧ ((run_bot_on_profile allOk (stopFrom 4) "a_R1" 0 stA 0).status
        = Status.skipped
      ∧ (run_bot_on_profile allOk (stopFrom 4) "a_R1" 0 stA 0).checkpoints
          = [1, 2]
      ∧ (run_bot_on_profile allOk (stopFrom 4) "a_R1" 0 stA 0).opens = 1
      ∧ (run_bot_on_profile allOk (stopFrom 4) "a_R1" 0 stA 0).closes = 2) :=
  ⟨(checkpoint_discipline allOk noStop "a_R1" 0 stA 0).2.1 rfl rfl rfl
      (fun _ => rfl),
   (checkpoint_discipline allOk (stopFrom 4) "a_R1" 0 stA 0).2.2.2.1
      (by decide) rfl (by decide)⟩

/-- C3 counterexample: cancellation at the checkpoint before step 2 (flag
set from clock 4 on) opens one session but issues two `driver.quit()`
calls — the explicit checkpoint close plus the scoped `finally` close,
which quits again because `close_browser` never clears `self.driver` — so
the open and close call counts are not equal on that exit path. -/
theorem session_close_counterexample :
    (run_bot_on_profile allOk (stopFrom 4) "a_R1" 0 stA 0).opens = 1
    ∧ (run_bot_on_profile allOk (stopFrom 4) "a_R1" 0 stA 0).closes = 2
    ∧ (run_bot_on_profile allOk (stopFrom 4) "a_R1" 0 stA 0).status = Status.skipped
    ∧ (run_bot_on_profile allOk (stopFrom 4) "a_R1" 0 stA 0).opens
        ≠ (run_bot_on_profile allOk (stopFrom 4) "a_R1" 0 stA 0).closes := by
  refine ⟨by decide, by decide, by decide, by decide⟩

/-- C3 (amended): on every exit path of the pipeline, every opened session
is closed at least once — the close count is bounded between the open
count and twice the open count (at most one session is opened per entry);
the counts are equal except on checkpoint cancellation with an open
session, where the close is issued twice. -/
theorem session_resource_bound (res : StepResults) (stopF : Nat → Bool)
    (key : String) (idx : Nat) (s0 : BotState) (t0 : Nat) :
    (run_bot_on_profile res stopF key idx s0 t0).opens
      ≤ (run_bot_on_profile res stopF key idx s0 t0).closes
    ∧ (run_bot_on_profile res stopF key idx s0 t0).closes
      ≤ 2 * (run_bot_on_profile res stopF key idx s0 t0).opens
    ∧ (run_bot_on_profile res stopF key idx s0 t0).opens ≤ 1 := by
  have h := pipe_spec res stopF key idx s0 t0
  exact ⟨h.opens_le_closes, h.closes_le, h.opens_le_one⟩

/-- C4 counterexample: when navigation hard-fails after a successful
browser setup, the pre-failure step outcome `browser_setup = true` is
recorded only in the pipeline's local results; the published
`task_results` mapping for the entry stays the empty dict written at entry
(it is populated only on the all-tasks-completed path), so it does not
contain the step outcomes recorded before the hard failure. -/
theorem task_results_counterexample :
    (run_bot_on_profile navFail noStop "a_R1" 0 stA 0).status = Status.failed
    ∧ (run_bot_on_profile navFail noStop "a_R1" 0 stA 0).error
        = some "Failed to navigate to Facebook"
    ∧ (run_bot_on_profile navFail noStop "a_R1" 0 stA 0).localTasks
        = [("browser_setup", true)]
    ∧ List.lookup "a_R1"
        (run_bot_on_profile navFail noStop "a_R1" 0 stA 0).st.taskResults
        = some []
    ∧ ([] : List (String × Bool)) ≠ [("browser_setup", true)] := by
  refine ⟨by decide, by decide, by decide, by decide, by decide⟩

/-- C4 (amended): if a hard-fail step fails, the entry's status becomes
failed and the failure is recorded as the entry's error message, but the
entry's `task_results` mapping remains the empty dict written at pipeline
entry: the step outcomes recorded before the hard failure are kept only in
the pipeline's local result object and are never published. -/
theorem hard_fail_results (res : StepResults) (stopF : Nat → Bool)
    (key : String) (idx : Nat) (s0 : BotState) (t0 : Nat)
    (h : (run_bot_on_profile res stopF key idx s0 t0).status = Status.failed) :
    (run_bot_on_profile res stopF key idx s0 t0).error.isSome = true
    ∧ List.lookup key (run_bot_on_profile res stopF key idx s0 t0).st.taskResults
        = some [] :=
  (pipe_spec res stopF key idx s0 t0).fail_tr h

theorem hard_fail_results_witness :
    (run_bot_on_profile navFail noStop "a_R1" 0 stA 0).error.isSome = true
    ∧ List.lookup "a_R1"
        (run_bot_on_profile navFail noStop "a_R1" 0 stA 0).st.taskResults
        = some [] :=
  hard_fail_results navFail noStop "a_R1" 0 stA 0 (by decide)

theorem queue_build_spec_witness :
    (buildQueue ["x", "y"] (validate_loops (some 2)).toNat)[2]?
      = some ⟨"x", 2, Status.pending⟩ :=
  (queue_build_spec ["x", "y"] (some 2)).2.2.2.2.2 1 0 "x" (by decide) (by decide)

/-- C7 counterexample: run one profile with all steps succeeding and no
stop request; the trace point at position 20 sits between the statement
marking the entry completed and the append of its key to the `completed`
list (`app.py` L236-237). At that reachable point the poll sum
`completed.size + failed.size + count(skipped) + count(pending or
running)` is 0 while the queue length is 1, so the claimed invariant fails
there. -/
theorem status_poll_counterexample :
    ((run_bot_sequential dbA ["a"] 1 (fun _ => allOk) noStop).trace[20]?).map
        (fun pt => pt.st.completed.length + pt.st.failed.length
          + countD pt.st.queue isSkipped + countD pt.st.queue isPendRun)
      = some 0
    ∧ ((run_bot_sequential dbA ["a"] 1 (fun _ => allOk) noStop).trace[20]?).map
        (fun pt => pt.st.queue.length) = some 1
    ∧ (0 : Nat) ≠ 1 := by
  refine ⟨by decide, by decide, by decide⟩

/-- C7 (amended): the poll invariant `completed.size + failed.size +
count(skipped) + count(pending or running) = queue length` holds at every
reachable point of a run except inside the two-statement windows in which
an entry's status has been set to completed (or failed) but its key has
not yet been appended to the corresponding list; those windows are the
points marked unstable in the trace. -/
theorem status_poll_invariant (db : List Profile) (selected : List String)
    (loops : Nat) (resFor : Nat → StepResults) (stopF : Nat → Bool) :
    ∀ pt ∈ (run_bot_sequential db selected loops resFor stopF).trace,
      pt.stable = true → statusInv pt.st := by
  have L := loop_spec db resFor stopF
    ((buildQueue selected loops).map (fun e => (e.profile, e.round))) 0
    ⟨true, buildQueue selected loops, [], [], []⟩ 1
    (by simp) (initial_pending selected loops) (sync_initial selected loops)
  intro pt hpt hstable
  simp only [run_bot_sequential] at hpt
  rcases List.mem_cons.mp hpt with rfl | hpt2
  · exact sync_statusInv _ (sync_initial selected loops)
  · rcases List.mem_append.mp hpt2 with hpt3 | hpt3
    · exact sync_statusInv _ (L.pts_sync pt hpt3 hstable)
    · simp only [List.mem_cons, List.not_mem_nil, or_false] at hpt3
      subst hpt3
      exact sync_statusInv _ L.sync_out

theorem status_poll_invariant_witness :
    statusInv (⟨true, buildQueue ["a"] 1, [], [], []⟩ : BotState) :=
  status_poll_invariant dbA ["a"] 1 (fun _ => allOk) noStop
    ⟨0, true, ⟨true, buildQueue ["a"] 1, [], [], []⟩⟩ (by decide) rfl

/-- C1 counterexample: run one profile with all steps succeeding and the
stop flag set from clock 18 on, which is after the last checkpoint read
(clock 17) but before the end of the entry. The flag is true at clocks 18,
19, 20, the entry is still running at clock 19, and at clock 20 it
transitions to completed — not skipped — although `stop_requested` was
already true. -/
theorem cancellation_counterexample :
    stopFrom 18 18 = true ∧ stopFrom 18 19 = true ∧ stopFrom 18 20 = true
    ∧ ((run_bot_sequential dbA ["a"] 1 (fun _ => allOk) (stopFrom 18)).trace[19]?).map
        (fun pt => (pt.clock, entryStatus pt.st 0))
      = some (19, some Status.running)
    ∧ ((run_bot_sequential dbA ["a"] 1 (fun _ => allOk) (stopFrom 18)).trace[20]?).map
        (fun pt => (pt.clock, entryStatus pt.st 0))
      = some (20, some Status.completed) := by
  refine ⟨by decide, by decide, by decide, by decide, by decide⟩

/-- C1 (amended): once `stop_requested` is true (the schedule is monotone:
once set it stays set), every entry that is still pending at that moment
finishes the run skipped — it never transitions to completed or failed.
Only the single entry already in flight past its final checkpoint can
still transition to completed or failed after the flag is set. -/
theorem cancellation_pending_skipped (db : List Profile)
    (selected : List String) (loops : Nat) (resFor : Nat → StepResults)
    (stopF : Nat → Bool)
    (hmono : ∀ a b, a ≤ b → stopF a = true → stopF b = true) :
    ∀ pt ∈ (run_bot_sequential db selected loops resFor stopF).trace,
      ∀ i, stopF pt.clock = true →
        entryStatus pt.st i = some Status.pending →
        entryStatus (run_bot_sequential db selected loops resFor stopF).final i
          = some Status.skipped := by
  have L := loop_spec db resFor stopF
    ((buildQueue selected loops).map (fun e => (e.profile, e.round))) 0
    ⟨true, buildQueue selected loops, [], [], []⟩ 1
    (by simp) (initial_pending selected loops) (sync_initial selected loops)
  intro pt hpt i hflag hpend
  simp only [run_bot_sequential] at hpt ⊢
  rcases List.mem_cons.mp hpt with rfl | hpt2
  · have h1 : stopF 1 = true := hmono 0 1 (by omega) hflag
    exact L.entry_stop h1 i (by omega) hpend
  · rcases List.mem_append.mp hpt2 with hpt3 | hpt3
    · exact L.c1 hmono pt hpt3 i (by omega) hflag hpend
    · simp only [List.mem_cons, List.not_mem_nil, or_false] at hpt3
      subst hpt3
      have hlt : i < (⟨true, buildQueue selected loops, [], [], []⟩
          : BotState).queue.length := by
        have h1 := entryStatus_lt_length _ i _ hpend
        have h2 := L.len_eq
        dsimp at h1 h2 ⊢
        omega
      rcases L.final_done i (by omega) hlt with h | h | h <;>
        (rw [show entryStatus
            { (runLoop db resFor stopF
                ((buildQueue selected loops).map (fun e => (e.profile, e.round)))
                0 ⟨true, buildQueue selected loops, [], [], []⟩ 1).st
              with running := false } i
            = entryStatus (runLoop db resFor stopF
                ((buildQueue selected loops).map (fun e => (e.profile, e.round)))
                0 ⟨true, buildQueue selected loops, [], [], []⟩ 1).st i from rfl]
            at hpend
         rw [h] at hpend
         simp at hpend)

theorem cancellation_pending_skipped_witness :
    entryStatus (run_bot_sequential dbA ["a"] 1 (fun _ => allOk)
      (fun _ => true)).final 0 = some Status.skipped :=
  cancellation_pending_skipped dbA ["a"] 1 (fun _ => allOk) (fun _ => true)
    (fun _ _ _ h => h)
    ⟨0, true, ⟨true, buildQueue ["a"] 1, [], [], []⟩⟩ (by decide) 0 rfl (by decide)

/-- C6: when the runner observes `stop_requested` at the top of a queue
iteration, it marks every remaining pending entry skipped in one sweep,
leaves every entry whose status is not pending untouched, invokes the
pipeline for no further entry, and after any full run the `running` flag
is false. -/
theorem stop_sweep (db : List Profile) (resFor : Nat → StepResults)
    (stopF : Nat → Bool) (nm : String) (r : Nat)
    (rest : List (String × Nat)) (idx : Nat) (s : BotState) (t : Nat)
    (hstop : stopF t = true)
    (hlen : s.queue.length = idx + ((nm, r) :: rest).length) :
    (∀ j, idx ≤ j → entryStatus s j = some Status.pending →
      entryStatus (runLoop db resFor stopF ((nm, r) :: rest) idx s t).st j
        = some Status.skipped)
    ∧ (∀ j st', st' ≠ Status.pending → entryStatus s j = some st' →
        entryStatus (runLoop db resFor stopF ((nm, r) :: rest) idx s t).st j
          = some st')
    ∧ (runLoop db resFor stopF ((nm, r) :: rest) idx s t).invoked = []
    ∧ (∀ (db2 : List Profile) (selected : List String) (loops : Nat)
        (resFor2 : Nat → StepResults) (stopF2 : Nat → Bool),
        (run_bot_sequential db2 selected loops resFor2 stopF2).final.running
          = false) := by
  have M := markLoop_spec ((nm, r) :: rest) idx s (t + 1)
  refine ⟨?_, ?_, ?_, ?_⟩
  · intro j hj hp
    simp only [runLoop, if_pos hstop]
    exact M.marks (le_of_eq hlen) j hj hp
  · intro j st' hst' hp
    simp only [runLoop, if_pos hstop]
    rcases M.frame j with h | h
    · unfold entryStatus at hp ⊢
      rw [h]
      exact hp
    · rw [h.1] at hp
      simp at hp
      exact absurd hp.symm hst'
  · simp only [runLoop, if_pos hstop]
  · intro db2 selected loops resFor2 stopF2
    simp only [run_bot_sequential]

theorem stop_sweep_witness :
    entryStatus (runLoop dbA (fun _ => allOk) (fun _ => true)
      [("a", 1)] 0 stA 0).st 0 = some Status.skipped :=
  (stop_sweep dbA (fun _ => allOk) (fun _ => true) "a" 1 [] 0 stA 0 rfl
    (by decide)).1 0 (by omega) (by decide)

/-- C8: a queue entry whose profile name is absent from the lookup built
at run start is marked skipped, never has status running at any trace
point, its index is never passed to the pipeline, and it is counted in the
final skipped count. -/
theorem unresolved_profile_skipped (db : List Profile)
    (selected : List String) (loops : Nat) (resFor : Nat → StepResults)
    (stopF : Nat → Bool) (j : Nat) (e : QueueEntry)
    (he : (buildQueue selected loops)[j]? = some e)
    (hnone : profilesDict db e.profile = none) :
    entryStatus (run_bot_sequential db selected loops resFor stopF).final j
      = some Status.skipped
    ∧ j ∉ (run_bot_sequential db selected loops resFor stopF).invoked
    ∧ (∀ pt ∈ (run_bot_sequential db selected loops resFor stopF).trace,
        entryStatus pt.st j ≠ some Status.running)
    ∧ 0 < countD (run_bot_sequential db selected loops resFor stopF).final.queue
        isSkipped := by
  have L := loop_spec db resFor stopF
    ((buildQueue selected loops).map (fun e => (e.profile, e.round))) 0
    ⟨true, buildQueue selected loops, [], [], []⟩ 1
    (by simp) (initial_pending selected loops) (sync_initial selected loops)
  have hitems : ((buildQueue selected loops).map
      (fun e => (e.profile, e.round)))[j]? = some (e.profile, e.round) := by
    rw [List.getElem?_map, he]
    rfl
  have H8 := L.c8 j e.profile e.round hitems hnone
  have hjlt : j < (buildQueue selected loops).length :=
    (List.getElem?_eq_some_iff.mp he).1
  have hskip : entryStatus (run_bot_sequential db selected loops resFor
      stopF).final j = some Status.skipped := by
    simp only [run_bot_sequential]
    have := H8.1
    rw [Nat.zero_add] at this
    exact this
  refine ⟨hskip, ?_, ?_, countD_pos_of_entry _ j hskip⟩
  · simp only [run_bot_sequential]
    have := H8.2.1
    rw [Nat.zero_add] at this
    exact this
  · intro pt hpt
    simp only [run_bot_sequential] at hpt
    rcases List.mem_cons.mp hpt with rfl | hpt2
    · have := initial_pending selected loops j (by omega) (by dsimp; omega)
      rw [this]
      simp
    · rcases List.mem_append.mp hpt2 with hpt3 | hpt3
      · have := H8.2.2 pt hpt3
        rw [Nat.zero_add] at this
        exact this
      · simp only [List.mem_cons, List.not_mem_nil, or_false] at hpt3
        subst hpt3
        have := H8.1
        rw [Nat.zero_add] at this
        show entryStatus (runLoop db resFor stopF
            ((buildQueue selected loops).map (fun e => (e.profile, e.round)))
            0 ⟨true, buildQueue selected loops, [], [], []⟩ 1).st j
          ≠ some Status.running
        rw [this]
        simp

theorem unresolved_profile_skipped_witness :
    entryStatus (run_bot_sequential dbA ["bob"] 1 (fun _ => allOk)
      noStop).final 0 = some Status.skipped
    ∧ 0 ∉ (run_bot_sequential dbA ["bob"] 1 (fun _ => allOk) noStop).invoked :=
  ⟨(unresolved_profile_skipped dbA ["bob"] 1 (fun _ => allOk) noStop 0
      ⟨"bob", 1, Status.pending⟩ (by decide) (by decide)).1,
   (unresolved_profile_skipped dbA ["bob"] 1 (fun _ => allOk) noStop 0
      ⟨"bob", 1, Status.pending⟩ (by decide) (by decide)).2.1⟩

end FbWarmup
